import Mathlib

/-!
Verification development for the MaterializeInc sqlparser crate.

The definitions below are a shallow embedding of the Rust sources:
tokenizer.rs (SQL tokenizer), parser.rs (precedence-climbing expression
engine, statement dispatch), parser/datetime.rs (interval tokenizer) and
ast/value/datetime.rs (interval semantics and validation).

Modelling conventions:
- Rust strings are Lean String, character streams are List Char.
- Machine integers (u8, u32, u64) are Nat; where wrap-around matters it is
  written explicitly as a remainder by a power of two.
- Result is Except; panics that are reachable only through internal
  invariant violations are modelled as distinguished error values.
- The dialect trait and the keyword vocabulary live outside the provided
  sources, so they are modelled from the spec (section 4.1); definitions
  that do so say "Modelled from the spec" in their doc comment.
-/

namespace SqlParser

/-- Modelled from the spec: the dialect capability interface of section 4.1,
three character predicates consumed by the tokenizer (the Rust trait
Dialect, whose source is not part of the provided files). -/
structure Dialect where
  is_identifier_start : Char → Bool
  is_identifier_part : Char → Bool
  is_delimited_identifier_start : Char → Bool

/-- Modelled from the spec: a generic dialect in the style described by the
spec (identifiers start with a letter or underscore, continue with letters,
digits and underscores, and double quotes delimit quoted identifiers). -/
def genericDialect : Dialect where
  is_identifier_start := fun c => c.isAlpha || c = '_'
  is_identifier_part := fun c => c.isAlpha || c.isDigit || c = '_'
  is_delimited_identifier_start := fun c => c = '"'

/-- Modelled from the spec: the keyword vocabulary ALL_KEYWORDS (the full
static list lives in the dialect module, outside the provided sources).
Only the canonical uppercase keywords exercised by this development are
listed; the tokenizer and parser consult this list exactly the way the
source consults ALL_KEYWORDS. -/
def ALL_KEYWORDS : List String :=
  ["SELECT", "WITH", "VALUES", "CREATE", "DROP", "DELETE", "INSERT",
   "UPDATE", "ALTER", "COPY", "START", "SET", "BEGIN", "COMMIT",
   "ROLLBACK", "PEEK", "SHOW", "TAIL", "NOT", "IN", "BETWEEN", "LIKE",
   "AND", "OR", "IS", "NULL", "TRUE", "FALSE", "CASE", "CAST", "DATE",
   "EXISTS", "EXTRACT", "INTERVAL", "TIME", "TIMESTAMP", "COLLATE",
   "YEAR", "MONTH", "DAY", "HOUR", "MINUTE", "SECOND", "TO", "FROM",
   "WHERE", "TABLE"]

/-- A single-character string holding an apostrophe (the single quote). -/
def squote : String := String.mk ['\'']

/-- Optional quote delimiter of a Word. -/
abbrev QuoteStyle := Option Char

/-- A keyword or an optionally quoted SQL identifier (struct Word in
tokenizer.rs). -/
structure Word where
  value : String
  quote_style : QuoteStyle
  keyword : String
deriving DecidableEq

/-- Whitespace kinds (enum Whitespace in tokenizer.rs). -/
inductive Whitespace where
  | Space
  | Newline
  | Tab
  | SingleLineComment (s : String)
  | MultiLineComment (s : String)
deriving DecidableEq

/-- SQL token enumeration (enum Token in tokenizer.rs). -/
inductive Token where
  | Word (w : Word)
  | Number (n : String)
  | Char (c : Char)
  | SingleQuotedString (s : String)
  | NationalStringLiteral (s : String)
  | HexStringLiteral (s : String)
  | Parameter (n : String)
  | Comma
  | Whitespace (w : Whitespace)
  | Eq
  | Neq
  | Lt
  | Gt
  | LtEq
  | GtEq
  | Plus
  | Minus
  | Mult
  | Div
  | Mod
  | JsonGet
  | JsonGetAsText
  | JsonGetPath
  | JsonGetPathAsText
  | JsonContainsJson
  | JsonContainedInJson
  | JsonContainsField
  | JsonContainsAnyFields
  | JsonContainsAllFields
  | JsonConcat
  | JsonDeletePath
  | JsonContainsPath
  | JsonApplyPathPredicate
  | LParen
  | RParen
  | Period
  | Colon
  | DoubleColon
  | SemiColon
  | Backslash
  | LBracket
  | RBracket
  | Ampersand
  | LBrace
  | RBrace
deriving DecidableEq

/-- Word::matching_end_quote. The Rust function panics on a character that
is not one of the three opening quotes; the panic is unreachable because
callers guard with is_delimited_identifier_start, so the catch-all branch
here returns the character itself. -/
def matching_end_quote (ch : Char) : Char :=
  if ch = '"' then '"'
  else if ch = '[' then ']'
  else if ch = '`' then '`'
  else ch

/-- Display for Word (impl fmt::Display for Word in tokenizer.rs). The
panicking branch for an unexpected quote style is modelled by rendering the
bare value. -/
def wordDisplay (w : Word) : String :=
  match w.quote_style with
  | some s =>
      if s = '"' || s = '[' || s = '`' then
        String.mk [s] ++ w.value ++ String.mk [matching_end_quote s]
      else
        w.value
  | none => w.value

/-- Display for Whitespace (impl fmt::Display for Whitespace). -/
def whitespaceDisplay : Whitespace → String
  | .Space => " "
  | .Newline => "\n"
  | .Tab => "\t"
  | .SingleLineComment s => "--" ++ s
  | .MultiLineComment s => "/*" ++ s ++ "*/"

/-- Display for Token (impl fmt::Display for Token): the canonical text of
each token. -/
def tokenDisplay : Token → String
  | .Word w => wordDisplay w
  | .Number n => n
  | .Char c => String.mk [c]
  | .SingleQuotedString s => squote ++ s ++ squote
  | .NationalStringLiteral s => "N" ++ squote ++ s ++ squote
  | .HexStringLiteral s => "X" ++ squote ++ s ++ squote
  | .Parameter n => "$" ++ n
  | .Comma => ","
  | .Whitespace w => whitespaceDisplay w
  | .Eq => "="
  | .Neq => "<>"
  | .Lt => "<"
  | .Gt => ">"
  | .LtEq => "<="
  | .GtEq => ">="
  | .Plus => "+"
  | .Minus => "-"
  | .Mult => "*"
  | .Div => "/"
  | .Mod => "%"
  | .JsonGet => "->"
  | .JsonGetAsText => "->>"
  | .JsonGetPath => "#>"
  | .JsonGetPathAsText => "#>>"
  | .JsonContainsJson => "@>"
  | .JsonContainedInJson => "<@"
  | .JsonContainsField => "?"
  | .JsonContainsAnyFields => "?|"
  | .JsonContainsAllFields => "?&"
  | .JsonConcat => "||"
  | .JsonDeletePath => "#-"
  | .JsonContainsPath => "@?"
  | .JsonApplyPathPredicate => "@@"
  | .LParen => "("
  | .RParen => ")"
  | .Period => "."
  | .Colon => ":"
  | .DoubleColon => "::"
  | .SemiColon => ";"
  | .Backslash => "\\"
  | .LBracket => "["
  | .RBracket => "]"
  | .Ampersand => "&"
  | .LBrace => "\x7b"
  | .RBrace => "\x7d"

/-- ASCII uppercase of a string (str::to_uppercase; the keyword vocabulary
is ASCII, so the ASCII case map is the exact behavior on every string the
tokenizer classifies). Written over the character list so that it reduces
in the kernel. -/
def asciiUppercase (s : String) : String :=
  String.mk (s.data.map Char.toUpper)

/-- ASCII lowercase of a string, written over the character list. -/
def asciiLowercase (s : String) : String :=
  String.mk (s.data.map Char.toLower)

/-- Token::make_word: classify a scanned word, attaching the canonical
uppercase keyword exactly when the word is unquoted and its uppercase form
is in the keyword vocabulary. -/
def Token.make_word (word : String) (quote_style : QuoteStyle) : Token :=
  let word_uppercase := asciiUppercase word
  let is_keyword := quote_style = none && ALL_KEYWORDS.contains word_uppercase
  Token.Word
    { value := word
      quote_style := quote_style
      keyword := if is_keyword then word_uppercase else "" }

/-- Token::make_keyword. -/
def Token.make_keyword (keyword : String) : Token :=
  Token.make_word keyword none

/-- Tokenizer errors carry only a message (struct TokenizerError). -/
abbrev TokenizerError := String

/-- Helper peeking_take_while: read characters while the predicate holds,
returning them as a String together with the unread remainder. -/
def peeking_take_while (p : Char → Bool) (cs : List Char) : String × List Char :=
  (String.mk (cs.takeWhile p), cs.dropWhile p)

/-- Tokenizer::tokenize_word: an identifier or keyword, after the first
character has been consumed. -/
def tokenize_word (d : Dialect) (first_char : Char) (cs : List Char) :
    String × List Char :=
  let (s, rest) := peeking_take_while d.is_identifier_part cs
  (String.mk [first_char] ++ s, rest)

/-- Body loop of Tokenizer::tokenize_single_quoted_string, entered after the
opening quote was consumed: an embedded pair of quotes is unescaped to one
quote, a lone quote terminates the literal, and end of input terminates it
as well (without an error). -/
def single_quoted_body : List Char → String × List Char
  | [] => ("", [])
  | c :: r =>
    if c = '\'' then
      match r with
      | c2 :: r2 =>
        if c2 = '\'' then
          let (s, rest) := single_quoted_body r2
          (squote ++ s, rest)
        else ("", r)
      | [] => ("", r)
    else
      let (s, rest) := single_quoted_body r
      (String.mk [c] ++ s, rest)

/-- Tokenizer::tokenize_single_quoted_string, starting at the opening
quote. -/
def tokenize_single_quoted_string : List Char → String × List Char
  | [] => ("", [])
  | _ :: r => single_quoted_body r

/-- Tokenizer::tokenize_multiline_comment, with the flag tracking whether
the previous character was an asterisk (maybe_closing_comment). -/
def tokenize_multiline_comment : Bool → List Char →
    Except TokenizerError (String × List Char)
  | _, [] => .error "Unexpected EOF while in a multi-line comment"
  | mc, c :: r =>
    if mc then
      if c = '/' then .ok ("", r)
      else
        match tokenize_multiline_comment (c = '*') r with
        | .error e => .error e
        | .ok (s, rest) =>
          .ok ("*" ++ (if c = '*' then "" else String.mk [c]) ++ s, rest)
    else
      match tokenize_multiline_comment (c = '*') r with
      | .error e => .error e
      | .ok (s, rest) =>
        .ok ((if c = '*' then "" else String.mk [c]) ++ s, rest)

/-- Digit-and-single-decimal-point scan of Tokenizer::tokenize_number (the
closure over seen_decimal). -/
def number_body : Bool → List Char → String × List Char
  | _, [] => ("", [])
  | seen, c :: r =>
    if c.isDigit then
      let (s, rest) := number_body seen r
      (String.mk [c] ++ s, rest)
    else if c = '.' && !seen then
      let (s, rest) := number_body true r
      (String.mk [c] ++ s, rest)
    else ("", c :: r)

/-- Tokenizer::tokenize_number: a digit run with at most one decimal point,
optionally followed by an exponent introduced by the letter e in either
case (always emitted uppercase) with an optional leading minus sign. The
Rust function returns Result but never errs, so the embedding returns the
token directly. -/
def tokenize_number (cs : List Char) : Token × List Char :=
  let (s, rest) := number_body false cs
  match rest with
  | [] => (.Number s, [])
  | c :: r =>
    if c = 'e' ∨ c = 'E' then
      match r with
      | '-' :: r2 =>
        let (e, r3) := peeking_take_while Char.isDigit r2
        (.Number (s ++ "E-" ++ e), r3)
      | _ =>
        let (e, r3) := peeking_take_while Char.isDigit r
        (.Number (s ++ "E" ++ e), r3)
    else (.Number s, c :: r)

/-- Tokenizer::tokenize_parameter, entered after the dollar sign was
consumed: one or more digits are required. -/
def tokenize_parameter (cs : List Char) :
    Except TokenizerError (Option (Token × List Char)) :=
  let (n, rest) := peeking_take_while Char.isDigit cs
  if n = "" then
    .error "parameter marker ($) was not followed by at least one digit"
  else .ok (some (.Parameter n, rest))

/-- Tokenizer::next_token: produce one token and the unread remainder, or
none at end of input. The branches appear in the order of the Rust match.
The line/column counters of the Tokenizer struct are omitted: they feed
only the diagnostic text of the unrecognized-operator errors, which is
modelled as the fixed message "Tokenizer Error". -/
def next_token (d : Dialect) : List Char →
    Except TokenizerError (Option (Token × List Char))
  | [] => .ok none
  | ch :: rest =>
    if ch = ' ' then .ok (some (.Whitespace .Space, rest))
    else if ch = '\t' then .ok (some (.Whitespace .Tab, rest))
    else if ch = '\n' then .ok (some (.Whitespace .Newline, rest))
    else if ch = '\r' then
      match rest with
      | '\n' :: r => .ok (some (.Whitespace .Newline, r))
      | _ => .ok (some (.Whitespace .Newline, rest))
    else if ch = 'N' then
      match rest with
      | '\'' :: _ =>
        let (s, r) := tokenize_single_quoted_string rest
        .ok (some (.NationalStringLiteral s, r))
      | _ =>
        let (s, r) := tokenize_word d 'N' rest
        .ok (some (Token.make_word s none, r))
    else if ch = 'x' || ch = 'X' then
      match rest with
      | '\'' :: _ =>
        let (s, r) := tokenize_single_quoted_string rest
        .ok (some (.HexStringLiteral s, r))
      | _ =>
        let (s, r) := tokenize_word d ch rest
        .ok (some (Token.make_word s none, r))
    else if d.is_identifier_start ch then
      let (s, r) := tokenize_word d ch rest
      .ok (some (Token.make_word s none, r))
    else if ch = '\'' then
      let (s, r) := tokenize_single_quoted_string (ch :: rest)
      .ok (some (.SingleQuotedString s, r))
    else if d.is_delimited_identifier_start ch then
      let quote_end := matching_end_quote ch
      let (s, r) := peeking_take_while (fun c => c ≠ quote_end) rest
      match r with
      | c :: r2 =>
        if c = quote_end then .ok (some (Token.make_word s (some ch), r2))
        else
          .error ("Expected close delimiter " ++ squote ++
            String.mk [quote_end] ++ squote ++ " before EOF.")
      | [] =>
        .error ("Expected close delimiter " ++ squote ++
          String.mk [quote_end] ++ squote ++ " before EOF.")
    else if ch.isDigit then
      .ok (some (tokenize_number (ch :: rest)))
    else if ch = '(' then .ok (some (.LParen, rest))
    else if ch = ')' then .ok (some (.RParen, rest))
    else if ch = ',' then .ok (some (.Comma, rest))
    else if ch = '-' then
      match rest with
      | '-' :: r =>
        let (s, r2) := peeking_take_while (fun c => c ≠ '\n') r
        match r2 with
        | '\n' :: r3 =>
          .ok (some (.Whitespace (.SingleLineComment (s ++ "\n")), r3))
        | _ => .ok (some (.Whitespace (.SingleLineComment s), r2))
      | '>' :: '>' :: r => .ok (some (.JsonGetAsText, r))
      | '>' :: r => .ok (some (.JsonGet, r))
      | _ => .ok (some (.Minus, rest))
    else if ch = '/' then
      match rest with
      | '*' :: r =>
        match tokenize_multiline_comment false r with
        | .error e => .error e
        | .ok (s, r2) => .ok (some (.Whitespace (.MultiLineComment s), r2))
      | _ => .ok (some (.Div, rest))
    else if ch = '+' then .ok (some (.Plus, rest))
    else if ch = '*' then .ok (some (.Mult, rest))
    else if ch = '%' then .ok (some (.Mod, rest))
    else if ch = '#' then
      match rest with
      | '>' :: '>' :: r => .ok (some (.JsonGetPathAsText, r))
      | '>' :: r => .ok (some (.JsonGetPath, r))
      | '-' :: r => .ok (some (.JsonDeletePath, r))
      | _ => .error "Tokenizer Error"
    else if ch = '@' then
      match rest with
      | '>' :: r => .ok (some (.JsonContainsJson, r))
      | '?' :: r => .ok (some (.JsonContainsPath, r))
      | '@' :: r => .ok (some (.JsonApplyPathPredicate, r))
      | _ => .error "Tokenizer Error"
    else if ch = '?' then
      match rest with
      | '|' :: r => .ok (some (.JsonContainsAnyFields, r))
      | '&' :: r => .ok (some (.JsonContainsAllFields, r))
      | _ => .ok (some (.JsonContainsField, rest))
    else if ch = '|' then
      match rest with
      | '|' :: r => .ok (some (.JsonConcat, r))
      | _ => .error "Tokenizer Error"
    else if ch = '=' then .ok (some (.Eq, rest))
    else if ch = '.' then
      match rest with
      | c :: _ =>
        if c.isDigit then
          .ok (some ((tokenize_number (ch :: rest)).1, []))
        else .ok (some (.Period, rest))
      | [] => .ok (some (.Period, rest))
    else if ch = '!' then
      match rest with
      | '=' :: r => .ok (some (.Neq, r))
      | _ => .error "Tokenizer Error"
    else if ch = '<' then
      match rest with
      | '=' :: r => .ok (some (.LtEq, r))
      | '>' :: r => .ok (some (.Neq, r))
      | '@' :: r => .ok (some (.JsonContainedInJson, r))
      | _ => .ok (some (.Lt, rest))
    else if ch = '>' then
      match rest with
      | '=' :: r => .ok (some (.GtEq, r))
      | _ => .ok (some (.Gt, rest))
    else if ch = ':' then
      match rest with
      | ':' :: r => .ok (some (.DoubleColon, r))
      | _ => .ok (some (.Colon, rest))
    else if ch = ';' then .ok (some (.SemiColon, rest))
    else if ch = '\\' then .ok (some (.Backslash, rest))
    else if ch = '[' then .ok (some (.LBracket, rest))
    else if ch = ']' then .ok (some (.RBracket, rest))
    else if ch = '&' then .ok (some (.Ampersand, rest))
    else if ch = '{' then .ok (some (.LBrace, rest))
    else if ch = '}' then .ok (some (.RBrace, rest))
    else if ch = '$' then tokenize_parameter rest
    else .ok (some (.Char ch, rest))

/-- Fuel-indexed driver of Tokenizer::tokenize, collecting tokens until
next_token yields none. The fuel argument makes the recursion structural;
since every produced token consumes at least one character, any fuel above
the input length is enough (theorem next_token_shrinks below). -/
def tokenizeFuel (d : Dialect) : Nat → List Char →
    Except TokenizerError (List Token)
  | 0, _ => .error "tokenizer fuel exhausted"
  | fuel + 1, cs =>
    match next_token d cs with
    | .error e => .error e
    | .ok none => .ok []
    | .ok (some (t, rest)) =>
      match tokenizeFuel d fuel rest with
      | .error e => .error e
      | .ok ts => .ok (t :: ts)

/-- Tokenizer::tokenize. The line/column counters the Rust loop maintains
after each token are omitted: they affect no token and no success result,
only diagnostic text of later errors. -/
def tokenize (d : Dialect) (query : String) :
    Except TokenizerError (List Token) :=
  tokenizeFuel d (query.data.length + 1) query.data

/-- Canonical text of a token sequence: the concatenation of the Display
rendering of every token. -/
def renderTokens (ts : List Token) : String :=
  match ts with
  | [] => ""
  | t :: ts => tokenDisplay t ++ renderTokens ts

/-- Parser errors (enum ParserError in parser.rs): either a wrapped
tokenizer failure or a structural parse failure. -/
inductive ParserError where
  | TokenizerError (s : String)
  | ParserError (s : String)
deriving DecidableEq

/-- Interval-computation errors (struct ValueError in ast/value.rs). -/
abbrev ValueError := String

/-- Fields of a literal TIMESTAMP or INTERVAL string (enum DateTimeField in
ast/value/datetime.rs), in declaration order Year to Second. -/
inductive DateTimeField where
  | Year
  | Month
  | Day
  | Hour
  | Minute
  | Second
deriving DecidableEq

/-- Position of a field in the declaration order. The derived Ord instance
of the Rust enum compares fields by this position, so Year is least and
Second is greatest. -/
def DateTimeField.idx : DateTimeField → Nat
  | .Year => 0
  | .Month => 1
  | .Day => 2
  | .Hour => 3
  | .Minute => 4
  | .Second => 5

/-- Display for DateTimeField. -/
def dtfDisplay : DateTimeField → String
  | .Year => "YEAR"
  | .Month => "MONTH"
  | .Day => "DAY"
  | .Hour => "HOUR"
  | .Minute => "MINUTE"
  | .Second => "SECOND"

/-- Step of DateTimeFieldIterator: the next less significant field, if
any. -/
def DateTimeField.next_smaller : DateTimeField → Option DateTimeField
  | .Year => some .Month
  | .Month => some .Day
  | .Day => some .Hour
  | .Hour => some .Minute
  | .Minute => some .Second
  | .Second => none

/-- Sequence produced by IntoIterator for DateTimeField: all fields
strictly less significant than the given one, in descending
significance. -/
def DateTimeField.smaller_fields : DateTimeField → List DateTimeField
  | .Year => [.Month, .Day, .Hour, .Minute, .Second]
  | .Month => [.Day, .Hour, .Minute, .Second]
  | .Day => [.Hour, .Minute, .Second]
  | .Hour => [.Minute, .Second]
  | .Minute => [.Second]
  | .Second => []

/-- Sequence once(Year).chain(Year.into_iter()) used by the precision
check: every field in descending significance. -/
def allDateTimeFields : List DateTimeField :=
  [.Year, .Month, .Day, .Hour, .Minute, .Second]

/-- Optional numeric components of a parsed date-time plus a sign flag
(struct ParsedDateTime), every field defaulting to absent. -/
structure ParsedDateTime where
  is_positive : Bool := true
  year : Option Nat := none
  month : Option Nat := none
  day : Option Nat := none
  hour : Option Nat := none
  minute : Option Nat := none
  second : Option Nat := none
  nano : Option Nat := none
deriving DecidableEq

/-- Tokens of the interval value sub-language (enum IntervalToken in
parser/datetime.rs). Num carries a u64 value, Nanos a u32 value; both are
modelled as Nat with explicit bounds at the parsing sites. -/
inductive IntervalToken where
  | Dash
  | Space
  | Colon
  | Dot
  | Num (v : Nat)
  | Nanos (v : Nat)
deriving DecidableEq

/-- Debug-style rendering of an IntervalToken, used in error messages. -/
def intervalTokenName : IntervalToken → String
  | .Dash => "Dash"
  | .Space => "Space"
  | .Colon => "Colon"
  | .Dot => "Dot"
  | .Num v => "Num(" ++ toString v ++ ")"
  | .Nanos v => "Nanos(" ++ toString v ++ ")"

/-- Numeric value of a digit string. -/
def digitsToNat (cs : List Char) : Nat :=
  cs.foldl (fun a c => a * 10 + (c.toNat - '0'.toNat)) 0

/-- Parse of an unsigned decimal integer bounded by the given exclusive
upper bound (the behavior of str::parse for an unsigned machine-integer
type on digit-only strings: empty input, non-digits and out-of-range
values are rejected). -/
def parseNatDigits (s : String) (bound : Nat) : Option Nat :=
  if s.data ≠ [] && s.data.all Char.isDigit && digitsToNat s.data < bound then
    some (digitsToNat s.data)
  else none

/-- Helper parse_num inside tokenize_interval: parse a number buffer as a
u64, reporting the character index on failure. -/
def parse_num (n : String) (idx : Nat) : Except ParserError IntervalToken :=
  match parseNatDigits n (2 ^ 64) with
  | some v => .ok (.Num v)
  | none =>
    .error (.ParserError ("Unable to parse value as a number at index " ++
      toString idx))

/-- Character loop of tokenize_interval: split on dash, space, colon and
dot, accumulating digit runs in num_buf and remembering whether the last
separator was a dot (last_field_is_frac). Returns the emitted tokens
together with the final buffer and flag. -/
def tokenize_interval_loop (value : String) : List Char → Nat → String →
    Bool → Except ParserError (List IntervalToken × String × Bool)
  | [], _, num_buf, frac => .ok ([], num_buf, frac)
  | chr :: cs, i, num_buf, frac =>
    if chr = '-' then
      if num_buf ≠ "" then
        match parse_num num_buf i with
        | .error e => .error e
        | .ok t =>
          match tokenize_interval_loop value cs (i + 1) "" frac with
          | .error e => .error e
          | .ok (ts, nb, f) => .ok (t :: .Dash :: ts, nb, f)
      else
        match tokenize_interval_loop value cs (i + 1) num_buf frac with
        | .error e => .error e
        | .ok (ts, nb, f) => .ok (.Dash :: ts, nb, f)
    else if chr = ' ' then
      match parse_num num_buf i with
      | .error e => .error e
      | .ok t =>
        match tokenize_interval_loop value cs (i + 1) "" frac with
        | .error e => .error e
        | .ok (ts, nb, f) => .ok (t :: .Space :: ts, nb, f)
    else if chr = ':' then
      match parse_num num_buf i with
      | .error e => .error e
      | .ok t =>
        match tokenize_interval_loop value cs (i + 1) "" frac with
        | .error e => .error e
        | .ok (ts, nb, f) => .ok (t :: .Colon :: ts, nb, f)
    else if chr = '.' then
      match parse_num num_buf i with
      | .error e => .error e
      | .ok t =>
        match tokenize_interval_loop value cs (i + 1) "" true with
        | .error e => .error e
        | .ok (ts, nb, f) => .ok (t :: .Dot :: ts, nb, f)
    else if chr.isDigit then
      tokenize_interval_loop value cs (i + 1) (num_buf.push chr) frac
    else
      .error (.TokenizerError ("Invalid character at offset " ++ toString i ++
        " in " ++ value ++ ": " ++ squote ++ String.mk [chr] ++ squote))

/-- Conversion of the final fractional-seconds digit run of
tokenize_interval into a Nanos token: the digits parse as a u32 and are
multiplied by 1_000_000_000 / 10 ^ (1 + count of leading zeros). The u32
product is written with an explicit remainder by 2^32; a Rust debug build
panics on the overflow instead of wrapping. -/
def frac_nanos (num_buf : String) : Except ParserError IntervalToken :=
  match parseNatDigits num_buf (2 ^ 32) with
  | none =>
    .error (.ParserError ("couldn" ++ squote ++ "t parse fraction of second "
      ++ num_buf))
  | some raw =>
    let leading_zeroes := (num_buf.data.takeWhile (fun c => c = '0')).length
    let multiplicand := 1000000000 / 10 ^ (1 + leading_zeroes)
    .ok (.Nanos ((raw * multiplicand) % 2 ^ 32))

/-- tokenize_interval (parser/datetime.rs): scan the interval value string
into IntervalTokens; a trailing digit run becomes a Num token, or a Nanos
token when it follows a dot. -/
def tokenize_interval (value : String) : Except ParserError (List IntervalToken) :=
  match tokenize_interval_loop value value.data 0 "" false with
  | .error e => .error e
  | .ok (toks, num_buf, frac) =>
    if num_buf ≠ "" then
      if !frac then
        match parse_num num_buf 0 with
        | .error e => .error e
        | .ok t => .ok (toks ++ [t])
      else
        match frac_nanos num_buf with
        | .error e => .error e
        | .ok t => .ok (toks ++ [t])
    else .ok toks

/-- potential_interval_tokens: the canonical token skeleton
Num,Dash,Num,Dash,Num,Space,Num,Colon,Num,Colon,Num,Dot,Nanos sliced to
start at the offset of the given leading field. -/
def potential_interval_tokens (from_field : DateTimeField) : List IntervalToken :=
  let all_toks : List IntervalToken :=
    [.Num 0, .Dash, .Num 0, .Dash, .Num 0, .Space,
     .Num 0, .Colon, .Num 0, .Colon, .Num 0, .Dot, .Nanos 0]
  let offset : Nat :=
    match from_field with
    | .Year => 0
    | .Month => 2
    | .Day => 4
    | .Hour => 6
    | .Minute => 8
    | .Second => 10
  all_toks.drop offset

/-- Zip loop of build_parsed_datetime: matching punctuation is consumed
silently, numeric tokens populate the current field and step to the next
less significant one (the seconds field may be populated only once), and a
Nanos token is accepted only right after a seconds value. The loop ends
when either the actual or the expected token list is exhausted. -/
def bpdt_loop : List IntervalToken → List IntervalToken → DateTimeField →
    Nat → ParsedDateTime → Except ParserError ParsedDateTime
  | [], _, _, _, pdt => .ok pdt
  | _, [], _, _, pdt => .ok pdt
  | atok :: as_, etok :: es, current_field, seconds_seen, pdt =>
    match atok, etok with
    | .Dash, .Dash => bpdt_loop as_ es current_field seconds_seen pdt
    | .Space, .Space => bpdt_loop as_ es current_field seconds_seen pdt
    | .Colon, .Colon => bpdt_loop as_ es current_field seconds_seen pdt
    | .Dot, .Dot => bpdt_loop as_ es current_field seconds_seen pdt
    | .Num v, .Num _ =>
      match current_field with
      | .Year =>
        bpdt_loop as_ es .Month seconds_seen { pdt with year := some v }
      | .Month =>
        bpdt_loop as_ es .Day seconds_seen { pdt with month := some v }
      | .Day =>
        bpdt_loop as_ es .Hour seconds_seen { pdt with day := some v }
      | .Hour =>
        bpdt_loop as_ es .Minute seconds_seen { pdt with hour := some v }
      | .Minute =>
        bpdt_loop as_ es .Second seconds_seen { pdt with minute := some v }
      | .Second =>
        if seconds_seen = 0 then
          bpdt_loop as_ es .Second 1 { pdt with second := some v }
        else
          .error (.ParserError ("Too many numbers to parse as a second at " ++
            toString v))
    | .Nanos v, .Nanos _ =>
      if seconds_seen = 1 then
        bpdt_loop as_ es current_field seconds_seen { pdt with nano := some v }
      else
        .error (.ParserError ("Invalid interval part: string provided " ++
          intervalTokenName atok ++ " but expected " ++ intervalTokenName etok))
    | provided, expectedTok =>
      .error (.ParserError ("Invalid interval part: string provided " ++
        intervalTokenName provided ++ " but expected " ++
        intervalTokenName expectedTok))

/-- build_parsed_datetime (parser/datetime.rs): check the actual tokens
against the expected skeleton for the leading field, peeling a leading
Dash as a negative sign, and populate a ParsedDateTime. Also returns the
list of warnings. The length comparison uses truncated Nat subtraction
where the Rust usize subtraction on an empty token list would underflow (a
debug-build panic); no claim exercises an empty token list. -/
def build_parsed_datetime (tokens : List IntervalToken)
    (leading_field : DateTimeField) (precision : Option DateTimeField) :
    Except ParserError (ParsedDateTime × List String) :=
  let precision_field := precision.getD leading_field
  let expected := potential_interval_tokens leading_field
  let warnings : List String :=
    if expected.length > tokens.length - 1 then
      ["More precision requested than supplied. Requested " ++
        dtfDisplay precision_field ++ " but only provided " ++
        toString tokens.length ++ " fields"]
    else []
  let (is_positive, actual) :=
    match tokens with
    | .Dash :: rest => (false, rest)
    | _ => (true, tokens)
  match bpdt_loop actual expected leading_field 0 {} with
  | .error e => .error e
  | .ok pdt => .ok ({ pdt with is_positive := is_positive }, warnings)

/-- Fixed per-unit second multipliers (seconds_multiplier in
ast/value/datetime.rs). The Rust function is unreachable for Year and
Month and panics there; the embedding returns 0 on those, and no caller
reaches them. -/
def seconds_multiplier (field : DateTimeField) : Nat :=
  match field with
  | .Day => 60 * 60 * 24
  | .Hour => 60 * 60
  | .Minute => 60
  | .Second => 1
  | _ => 0

/-- Monotonic duration (std::time::Duration restricted to what the
interval code uses): whole seconds plus a sub-second nanosecond count
below one billion. -/
structure Duration where
  secs : Nat
  nanos : Nat
deriving DecidableEq

/-- Duration::new normalizes a nanosecond count of one billion or more
into the seconds. -/
def Duration.new (secs nanos : Nat) : Duration :=
  ⟨secs + nanos / 1000000000, nanos % 1000000000⟩

/-- Duration::from_secs. -/
def Duration.from_secs (secs : Nat) : Duration := ⟨secs, 0⟩

/-- Result of evaluating an interval (enum Interval in
ast/value/datetime.rs): a signed month count or a signed duration. -/
inductive Interval where
  | Months (n : Int)
  | Duration (is_positive : Bool) (duration : SqlParser.Duration)
deriving DecidableEq

/-- Parsed INTERVAL literal (struct IntervalValue in
ast/value/datetime.rs). -/
structure IntervalValue where
  value : String
  parsed : ParsedDateTime
  leading_field : DateTimeField
  leading_precision : Option Nat := none
  last_field : Option DateTimeField := none
  fractional_seconds_precision : Option Nat := none
deriving DecidableEq

/-- IntervalValue::units_of: the number parsed out of the literal string
for the field. -/
def IntervalValue.units_of (iv : IntervalValue) (field : DateTimeField) :
    Option Nat :=
  match field with
  | .Year => iv.parsed.year
  | .Month => iv.parsed.month
  | .Day => iv.parsed.day
  | .Hour => iv.parsed.hour
  | .Minute => iv.parsed.minute
  | .Second => iv.parsed.second

/-- IntervalValue::positivity: 1 when positive, otherwise -1. -/
def IntervalValue.positivity (iv : IntervalValue) : Int :=
  if iv.parsed.is_positive then 1 else -1

/-- IntervalValue::computed_permissive: evaluate the interval without
enforcing the qualifier truncation; YEAR or MONTH roots give a signed
month count, duration-like roots accumulate seconds over the fields from
the leading field down to those not beyond the resolved last field. -/
def IntervalValue.computed_permissive (iv : IntervalValue) :
    Except ValueError Interval :=
  match iv.leading_field with
  | .Year =>
    match iv.last_field with
    | some .Month =>
      .ok (.Months (iv.positivity * (iv.parsed.year.getD 0 : Nat) * 12 +
        (iv.parsed.month.getD 0 : Nat)))
    | some .Year | none =>
      match iv.parsed.year with
      | none => .error "No YEAR provided"
      | some year => .ok (.Months (iv.positivity * (year : Nat) * 12))
    | some invalid =>
      .error ("Invalid specifier for YEAR precision: " ++ dtfDisplay invalid)
  | .Month =>
    match iv.last_field with
    | some .Month | none =>
      match iv.parsed.month with
      | none => .error "No MONTH provided"
      | some m => .ok (.Months (iv.positivity * (m : Nat)))
    | some invalid =>
      .error ("Invalid specifier for MONTH precision: " ++ dtfDisplay invalid)
  | durationlike =>
    match iv.units_of durationlike with
    | none =>
      .error ("No " ++ dtfDisplay durationlike ++
        " provided in value string for " ++ iv.value)
    | some time =>
      let min_field := iv.last_field.getD durationlike
      let seconds :=
        (durationlike.smaller_fields.takeWhile
            (fun f => f.idx ≤ min_field.idx)).foldl
          (fun acc f =>
            match iv.units_of f with
            | some t => acc + t * seconds_multiplier f
            | none => acc)
          (time * seconds_multiplier durationlike)
      let duration :=
        match min_field, iv.parsed.nano with
        | .Second, some nanos => Duration.new seconds nanos
        | _, _ => Duration.from_secs seconds
      .ok (.Duration iv.parsed.is_positive duration)

/-- Message fragment helper fields_msg: comma-separated field names. -/
def fields_msg (fields : List DateTimeField) : String :=
  String.intercalate ", " (fields.map dtfDisplay)

/-- Resolved last field of the qualifier: last_field, defaulting to the
leading field. -/
def IntervalValue.last_field_resolved (iv : IntervalValue) : DateTimeField :=
  iv.last_field.getD iv.leading_field

/-- Populated fields strictly more significant than the leading field (the
extra_leading_fields vector of fields_match_precision). -/
def IntervalValue.extra_leading_fields (iv : IntervalValue) :
    List DateTimeField :=
  allDateTimeFields.filter
    (fun f => (iv.units_of f).isSome && f.idx < iv.leading_field.idx)

/-- Populated fields strictly less significant than the resolved last
field (the extra_trailing_fields vector of fields_match_precision). -/
def IntervalValue.extra_trailing_fields (iv : IntervalValue) :
    List DateTimeField :=
  allDateTimeFields.filter
    (fun f => (iv.units_of f).isSome && iv.last_field_resolved.idx < f.idx)

/-- Fields required by the qualifier but absent from the data (the
missing_fields match of fields_match_precision). -/
def IntervalValue.missing_fields (iv : IntervalValue) : List DateTimeField :=
  match iv.units_of iv.leading_field, iv.units_of iv.last_field_resolved with
  | some _, some _ => []
  | none, some _ => [iv.leading_field]
  | some _, none => [iv.last_field_resolved]
  | none, none => [iv.leading_field, iv.last_field_resolved]

/-- IntervalValue::present_fields: every populated field, rendered. -/
def IntervalValue.present_fields (iv : IntervalValue) : String :=
  fields_msg (allDateTimeFields.filter (fun f => (iv.units_of f).isSome))

/-- Error text pushed for extra leading fields. -/
def IntervalValue.extra_leading_msg (iv : IntervalValue) : String :=
  "The interval string " ++ squote ++ iv.value ++ squote ++ " specifies " ++
    fields_msg iv.extra_leading_fields ++
    "s but the significance requested is " ++ dtfDisplay iv.leading_field

/-- Error text pushed for extra trailing fields: the requested precision
would truncate them. -/
def IntervalValue.truncate_msg (iv : IntervalValue) : String :=
  "The interval string " ++ squote ++ iv.value ++ squote ++ " specifies " ++
    fields_msg iv.extra_trailing_fields ++
    "s but the requested precision would truncate to " ++
    dtfDisplay iv.last_field_resolved

/-- Error text pushed for missing fields. -/
def IntervalValue.missing_msg (iv : IntervalValue) : String :=
  "The interval string " ++ squote ++ iv.value ++ squote ++ " provides " ++
    iv.present_fields ++ " - which does not include the requested field(s) " ++
    fields_msg iv.missing_fields

/-- Error list assembled by fields_match_precision, in push order. -/
def IntervalValue.precision_errors (iv : IntervalValue) : List String :=
  (if iv.extra_leading_fields ≠ [] then [iv.extra_leading_msg] else []) ++
  (if iv.extra_trailing_fields ≠ [] then [iv.truncate_msg] else []) ++
  (if iv.missing_fields ≠ [] then [iv.missing_msg] else [])

/-- IntervalValue::fields_match_precision: Ok when no error was collected,
otherwise all collected errors joined into one message. -/
def IntervalValue.fields_match_precision (iv : IntervalValue) :
    Except ValueError Unit :=
  if iv.precision_errors = [] then .ok ()
  else .error (String.intercalate "; " iv.precision_errors)

/-- Identifier name, in the originally quoted form (type Ident in
ast/mod.rs). -/
abbrev Ident := String

/-- Word::as_ident: the Display rendering of the word. -/
def Word.as_ident (w : Word) : Ident := wordDisplay w

/-- Dotted name (struct ObjectName in ast/mod.rs). -/
abbrev ObjectName := List Ident

/-- Modelled from the spec: binary operators of the expression AST (enum
BinaryOperator of the ast operator module, whose file is not among the
provided sources; the variant names appear throughout parser.rs). -/
inductive BinaryOperator where
  | Plus
  | Minus
  | Multiply
  | Divide
  | Modulus
  | Gt
  | Lt
  | GtEq
  | LtEq
  | Eq
  | NotEq
  | And
  | Or
  | Like
  | NotLike
deriving DecidableEq

/-- Modelled from the spec: unary operators of the expression AST (enum
UnaryOperator of the ast operator module). -/
inductive UnaryOperator where
  | Plus
  | Minus
  | Not
deriving DecidableEq

/-- Literal values (enum Value in ast/value.rs) restricted to the variants
the embedded parser fragment can produce. The BigDecimal payload of
Decimal is modelled as the raw digit text; the Interval variant is omitted
because parse_literal_interval is outside the embedded fragment. -/
inductive Value where
  | Long (n : Nat)
  | Decimal (raw : String)
  | SingleQuotedString (s : String)
  | NationalStringLiteral (s : String)
  | HexStringLiteral (s : String)
  | Boolean (b : Bool)
  | Date (s : String)
  | Time (s : String)
  | Timestamp (s : String)
  | Null

/-- Expression AST (enum Expr in ast/mod.rs) restricted to the variants
the embedded parser fragment can produce; Case, Cast, Exists, Extract,
Function, Subquery and InSubquery are omitted because their clause parsers
are outside the embedded fragment (reaching one of them yields the
distinguished unmodelled error). -/
inductive Expr where
  | Identifier (i : Ident)
  | Wildcard
  | QualifiedWildcard (ids : List Ident)
  | CompoundIdentifier (ids : List Ident)
  | IsNull (e : Expr)
  | IsNotNull (e : Expr)
  | InList (e : Expr) (list : List Expr) (negated : Bool)
  | Between (e : Expr) (negated : Bool) (low : Expr) (high : Expr)
  | BinaryOp (left : Expr) (op : BinaryOperator) (right : Expr)
  | UnaryOp (op : UnaryOperator) (e : Expr)
  | Nested (e : Expr)
  | Value (v : Value)
  | Collate (e : Expr) (collation : ObjectName)

/-- Statements (enum Statement in ast/mod.rs) restricted to the variants
the embedded dispatch can produce; the other statement kinds route to the
unmodelled error. -/
inductive Statement where
  | Peek (name : ObjectName)
  | Tail (name : ObjectName)
deriving DecidableEq

/-- Error marking a parse path that leads outside the embedded fragment of
parser.rs (a clause parser none of the verified claims exercises). -/
def unmodelledErr (what : String) : ParserError :=
  .ParserError ("unmodelled: " ++ what)

/-- Parser cursor (struct Parser): the full token vector plus the index of
the first unprocessed token. -/
structure ParserState where
  tokens : List Token
  index : Nat
deriving DecidableEq

/-- Whether a token is whitespace. -/
def isWhitespaceTok : Token → Bool
  | .Whitespace _ => true
  | _ => false

/-- Skip-whitespace lookahead under Parser::peek_nth_token. -/
def peekNthFrom : List Token → Nat → Option Token
  | [], _ => none
  | t :: ts, n =>
    if isWhitespaceTok t then peekNthFrom ts n
    else
      match n with
      | 0 => some t
      | n + 1 => peekNthFrom ts n

/-- Parser::peek_nth_token: the nth unprocessed non-whitespace token. -/
def ParserState.peek_nth_token (p : ParserState) (n : Nat) : Option Token :=
  peekNthFrom (p.tokens.drop p.index) n

/-- Parser::peek_token. -/
def ParserState.peek_token (p : ParserState) : Option Token :=
  p.peek_nth_token 0

/-- Count of leading whitespace tokens. -/
def skipWsCount : List Token → Nat
  | [] => 0
  | t :: ts => if isWhitespaceTok t then skipWsCount ts + 1 else 0

/-- Parser::next_token: return the first unprocessed non-whitespace token
and advance past it; past end of input the index still advances by one
(the call stays safe to repeat). -/
def ParserState.next_token (p : ParserState) : Option Token × ParserState :=
  let rest := p.tokens.drop p.index
  let k := skipWsCount rest
  (match rest.drop k with
   | t :: _ => some t
   | [] => none,
   { p with index := p.index + k + 1 })

/-- Index computation of Parser::prev_token: step back over whitespace to
the previous non-whitespace token. The Rust loop asserts index > 0 before
every decrement (a debug panic on violation); the embedding stops at 0,
and no modelled call path reaches that case. -/
def prevIndexFrom (ts : List Token) : Nat → Nat
  | 0 => 0
  | i + 1 =>
    match ts.get? i with
    | some t => if isWhitespaceTok t then prevIndexFrom ts i else i
    | none => i

/-- Parser::prev_token. -/
def ParserState.prev_token (p : ParserState) : ParserState :=
  { p with index := prevIndexFrom p.tokens p.index }

/-- Parser::consume_token: consume the next token when it equals the
expected one. -/
def ParserState.consume_token (p : ParserState) (expected : Token) :
    Bool × ParserState :=
  match p.peek_token with
  | some t => if t = expected then (true, (p.next_token).2) else (false, p)
  | none => (false, p)

/-- ASCII-case-insensitive string equality (str::eq_ignore_ascii_case). -/
def eqIgnoreAsciiCase (a b : String) : Bool :=
  asciiLowercase a = asciiLowercase b

/-- Parser::parse_keyword: consume the next token when it is a word whose
keyword matches case-insensitively. The Rust debug assertion that the
expected string is in ALL_KEYWORDS holds for every constant passed in this
development. -/
def ParserState.parse_keyword (p : ParserState) (expected : String) :
    Bool × ParserState :=
  match p.peek_token with
  | some (.Word k) =>
    if eqIgnoreAsciiCase expected k.keyword then (true, (p.next_token).2)
    else (false, p)
  | _ => (false, p)

/-- Sequential keyword matching inside Parser::parse_keywords. -/
def parse_keywords_go : ParserState → List String → Bool × ParserState
  | p, [] => (true, p)
  | p, kw :: kws =>
    match p.parse_keyword kw with
    | (true, p') => parse_keywords_go p' kws
    | (false, _) => (false, p)

/-- Parser::parse_keywords: match the whole keyword sequence, rewinding to
the saved index on any miss. -/
def ParserState.parse_keywords (p : ParserState) (kws : List String) :
    Bool × ParserState :=
  match parse_keywords_go p kws with
  | (true, p') => (true, p')
  | (false, _) => (false, p)

/-- Error text of Parser::expected. -/
def expectedMsg (what : String) (found : Option Token) : ParserError :=
  .ParserError ("Expected " ++ what ++ ", found: " ++
    (match found with
     | some t => tokenDisplay t
     | none => "EOF"))

/-- Parser::expect_token. -/
def ParserState.expect_token (p : ParserState) (expected : Token) :
    Except ParserError ParserState :=
  match p.consume_token expected with
  | (true, p') => .ok p'
  | (false, _) => .error (expectedMsg (tokenDisplay expected) p.peek_token)

/-- Parser::expect_keyword. -/
def ParserState.expect_keyword (p : ParserState) (expected : String) :
    Except ParserError ParserState :=
  match p.parse_keyword expected with
  | (true, p') => .ok p'
  | (false, _) => .error (expectedMsg expected p.peek_token)

/-- Precedence constant Parser::UNARY_NOT_PREC. -/
def UNARY_NOT_PREC : Nat := 15

/-- Precedence constant Parser::BETWEEN_PREC. -/
def BETWEEN_PREC : Nat := 20

/-- Precedence constant Parser::PLUS_MINUS_PREC. -/
def PLUS_MINUS_PREC : Nat := 30

/-- Parser::get_next_precedence: precedence of the next token, with the
context-sensitive lookahead for NOT. The Rust signature returns Result but
every path returns Ok, so the embedding returns the value directly. -/
def get_next_precedence (p : ParserState) : Nat :=
  match p.peek_token with
  | some tok =>
    match tok with
    | .Word k =>
      if k.keyword = "OR" then 5
      else if k.keyword = "AND" then 10
      else if k.keyword = "NOT" then
        match p.peek_nth_token 1 with
        | some (.Word k2) =>
          if k2.keyword = "IN" then BETWEEN_PREC
          else if k2.keyword = "BETWEEN" then BETWEEN_PREC
          else if k2.keyword = "LIKE" then BETWEEN_PREC
          else 0
        | _ => 0
      else if k.keyword = "IS" then 17
      else if k.keyword = "IN" then BETWEEN_PREC
      else if k.keyword = "BETWEEN" then BETWEEN_PREC
      else if k.keyword = "LIKE" then BETWEEN_PREC
      else 0
    | .Eq | .Lt | .LtEq | .Neq | .Gt | .GtEq => 20
    | .Plus | .Minus => PLUS_MINUS_PREC
    | .Mult | .Div | .Mod => 40
    | .DoubleColon => 50
    | _ => 0
  | none => 0

/-- Parser::parse_value. The BigDecimal parse of a dotted number is not
modelled (the raw text is stored); no verified claim reaches it. -/
def parse_value (p : ParserState) : Except ParserError (Value × ParserState) :=
  match p.next_token with
  | (some t, p') =>
    match t with
    | .Word k =>
      if k.keyword = "TRUE" then .ok (.Boolean true, p')
      else if k.keyword = "FALSE" then .ok (.Boolean false, p')
      else if k.keyword = "NULL" then .ok (.Null, p')
      else .error (.ParserError ("No value parser for keyword " ++ k.keyword))
    | .Number n =>
      if n.data.contains '.' then .ok (.Decimal n, p')
      else
        match parseNatDigits n (2 ^ 64) with
        | some v => .ok (.Long v, p')
        | none =>
          .error (.ParserError ("Could not parse " ++ squote ++ n ++ squote ++
            " as u64"))
    | .SingleQuotedString s => .ok (.SingleQuotedString s, p')
    | .NationalStringLiteral s => .ok (.NationalStringLiteral s, p')
    | .HexStringLiteral s => .ok (.HexStringLiteral s, p')
    | _ => .error (.ParserError "Unsupported value")
  | (none, _) => .error (.ParserError "Expecting a value, but found EOF")

/-- Parser::parse_literal_string. -/
def parse_literal_string (p : ParserState) :
    Except ParserError (String × ParserState) :=
  match p.next_token with
  | (some (.SingleQuotedString s), p') => .ok (s, p')
  | (other, _) => .error (expectedMsg "literal string" other)

/-- Parser::parse_identifier. -/
def parse_identifier (p : ParserState) :
    Except ParserError (Ident × ParserState) :=
  match p.next_token with
  | (some (.Word w), p') => .ok (w.as_ident, p')
  | (other, _) => .error (expectedMsg "identifier" other)

/-- Parser::parse_list_of_ids, fuel-indexed (the loop consumes at least one
token per iteration, so any fuel above the token count is enough). -/
def parse_list_of_ids : Nat → ParserState → Token →
    Except ParserError (List Ident × ParserState)
  | 0, _, _ => .error (.ParserError "parser fuel exhausted")
  | fuel + 1, p, separator =>
    match parse_identifier p with
    | .error e => .error e
    | .ok (id, p') =>
      match p'.consume_token separator with
      | (true, p2) =>
        match parse_list_of_ids fuel p2 separator with
        | .error e => .error e
        | .ok (ids, p3) => .ok (id :: ids, p3)
      | (false, p2) => .ok ([id], p2)

/-- Parser::parse_object_name. -/
def parse_object_name (p : ParserState) :
    Except ParserError (ObjectName × ParserState) :=
  parse_list_of_ids (p.tokens.length + 1) p .Period

/-- Shape of the recursive expression entry point parse_subexpr: the
knot-tying argument the clause helpers below receive (open recursion,
closed by parseSubexpr). -/
abbrev SubexprFn :=
  Nat → ParserState → Except ParserError (Expr × ParserState)

/-- Parser::parse_expr_list (fuel-indexed loop over comma-separated
expressions; parse_expr is parse_subexpr at precedence 0). -/
def parse_expr_list_f (sub : SubexprFn) : Nat → ParserState →
    Except ParserError (List Expr × ParserState)
  | 0, _ => .error (.ParserError "parser fuel exhausted")
  | fuel + 1, p =>
    match sub 0 p with
    | .error e => .error e
    | .ok (e, p') =>
      match p'.consume_token .Comma with
      | (true, p2) =>
        match parse_expr_list_f sub fuel p2 with
        | .error er => .error er
        | .ok (es, p3) => .ok (e :: es, p3)
      | (false, p2) => .ok ([e], p2)

/-- Parser::parse_in: the parenthesized list or subquery following
[ NOT ] IN. The subquery arm leads outside the embedded fragment. -/
def parse_in_f (sub : SubexprFn) (e : Expr) (negated : Bool)
    (p : ParserState) : Except ParserError (Expr × ParserState) :=
  match p.expect_token .LParen with
  | .error er => .error er
  | .ok p1 =>
    match p1.parse_keyword "SELECT" with
    | (true, _) => .error (unmodelledErr "parse_query")
    | (false, p2) =>
      match p2.parse_keyword "WITH" with
      | (true, _) => .error (unmodelledErr "parse_query")
      | (false, p3) =>
        match parse_expr_list_f sub (p3.tokens.length + 1) p3 with
        | .error er => .error er
        | .ok (list, p4) =>
          match p4.expect_token .RParen with
          | .error er => .error er
          | .ok p5 => .ok (.InList e list negated, p5)

/-- Parser::parse_between: BETWEEN low AND high, with both bounds parsed at
the BETWEEN precedence floor. -/
def parse_between_f (sub : SubexprFn) (e : Expr) (negated : Bool)
    (p : ParserState) : Except ParserError (Expr × ParserState) :=
  match sub BETWEEN_PREC p with
  | .error er => .error er
  | .ok (low, p1) =>
    match p1.expect_keyword "AND" with
    | .error er => .error er
    | .ok p2 =>
      match sub BETWEEN_PREC p2 with
      | .error er => .error er
      | .ok (high, p3) => .ok (.Between e negated low high, p3)

/-- Parser::parse_infix: the operator following an expression. The two
panic branches for a token without an infix parser (unreachable while the
precedence table agrees with this dispatch) are modelled as errors, as is
the DoubleColon cast path, which leads outside the embedded fragment. -/
def parse_infix_f (sub : SubexprFn) (e : Expr) (precedence : Nat)
    (p : ParserState) : Except ParserError (Expr × ParserState) :=
  match p.next_token with
  | (none, _) => .error (.ParserError "No infix parser for token EOF")
  | (some tok, p1) =>
    let reg : Option BinaryOperator × ParserState :=
      match tok with
      | .Eq => (some .Eq, p1)
      | .Neq => (some .NotEq, p1)
      | .Gt => (some .Gt, p1)
      | .GtEq => (some .GtEq, p1)
      | .Lt => (some .Lt, p1)
      | .LtEq => (some .LtEq, p1)
      | .Plus => (some .Plus, p1)
      | .Minus => (some .Minus, p1)
      | .Mult => (some .Multiply, p1)
      | .Mod => (some .Modulus, p1)
      | .Div => (some .Divide, p1)
      | .Word k =>
        if k.keyword = "AND" then (some .And, p1)
        else if k.keyword = "OR" then (some .Or, p1)
        else if k.keyword = "LIKE" then (some .Like, p1)
        else if k.keyword = "NOT" then
          match p1.parse_keyword "LIKE" with
          | (true, p') => (some .NotLike, p')
          | (false, p') => (none, p')
        else (none, p1)
      | _ => (none, p1)
    match reg with
    | (some op, p2) =>
      match sub precedence p2 with
      | .error er => .error er
      | .ok (right, p3) => .ok (.BinaryOp e op right, p3)
    | (none, p2) =>
      match tok with
      | .Word k =>
        if k.keyword = "IS" then
          match p2.parse_keyword "NULL" with
          | (true, p3) => .ok (.IsNull e, p3)
          | (false, p3) =>
            match p3.parse_keywords ["NOT", "NULL"] with
            | (true, p4) => .ok (.IsNotNull e, p4)
            | (false, p4) =>
              .error (expectedMsg "NULL or NOT NULL after IS" p4.peek_token)
        else if k.keyword = "NOT" ∨ k.keyword = "IN" ∨ k.keyword = "BETWEEN" then
          let p3 := p2.prev_token
          let (negated, p4) := p3.parse_keyword "NOT"
          match p4.parse_keyword "IN" with
          | (true, p5) => parse_in_f sub e negated p5
          | (false, p5) =>
            match p5.parse_keyword "BETWEEN" with
            | (true, p6) => parse_between_f sub e negated p6
            | (false, p6) =>
              .error (expectedMsg "IN or BETWEEN after NOT" p6.peek_token)
        else .error (.ParserError "No infix parser for token")
      | .DoubleColon => .error (unmodelledErr "parse_pg_cast")
      | _ => .error (.ParserError "No infix parser for token")

/-- Multi-part identifier loop inside parse_prefix (the while loop over
consumed periods), returning the accumulated parts and whether the name
ended with a wildcard star. -/
def collect_id_parts : Nat → ParserState → List Ident →
    Except ParserError (List Ident × Bool × ParserState)
  | 0, _, _ => .error (.ParserError "parser fuel exhausted")
  | fuel + 1, p, acc =>
    match p.consume_token .Period with
    | (false, p') => .ok (acc, false, p')
    | (true, p') =>
      match p'.next_token with
      | (some (.Word w), p2) => collect_id_parts fuel p2 (acc ++ [w.as_ident])
      | (some .Mult, p2) => .ok (acc, true, p2)
      | (other, _) =>
        .error (expectedMsg ("an identifier or a " ++ squote ++ "*" ++ squote
          ++ " after " ++ squote ++ "." ++ squote) other)

/-- Parser::parse_prefix: one prefix expression, optionally trailed by
COLLATE. The CASE, CAST, EXISTS, EXTRACT and INTERVAL keyword branches,
the function-call arm and the subquery arms lead outside the embedded
fragment. -/
def parse_prefix_expr (sub : SubexprFn) (p : ParserState) :
    Except ParserError (Expr × ParserState) :=
  match p.next_token with
  | (none, _) => .error (.ParserError "Unexpected EOF")
  | (some tok, p1) =>
    let core : Except ParserError (Expr × ParserState) :=
      match tok with
      | .Word w =>
        if w.keyword = "TRUE" ∨ w.keyword = "FALSE" ∨ w.keyword = "NULL" then
          match parse_value p1.prev_token with
          | .error e => .error e
          | .ok (v, p2) => .ok (.Value v, p2)
        else if w.keyword = "CASE" then .error (unmodelledErr "parse_case_expr")
        else if w.keyword = "CAST" then .error (unmodelledErr "parse_cast_expr")
        else if w.keyword = "DATE" then
          match parse_literal_string p1 with
          | .error e => .error e
          | .ok (s, p2) => .ok (.Value (.Date s), p2)
        else if w.keyword = "EXISTS" then
          .error (unmodelledErr "parse_exists_expr")
        else if w.keyword = "EXTRACT" then
          .error (unmodelledErr "parse_extract_expr")
        else if w.keyword = "INTERVAL" then
          .error (unmodelledErr "parse_literal_interval")
        else if w.keyword = "NOT" then
          match sub UNARY_NOT_PREC p1 with
          | .error e => .error e
          | .ok (e, p2) => .ok (.UnaryOp .Not e, p2)
        else if w.keyword = "TIME" then
          match parse_literal_string p1 with
          | .error e => .error e
          | .ok (s, p2) => .ok (.Value (.Time s), p2)
        else if w.keyword = "TIMESTAMP" then
          match parse_literal_string p1 with
          | .error e => .error e
          | .ok (s, p2) => .ok (.Value (.Timestamp s), p2)
        else
          match p1.peek_token with
          | some .LParen | some .Period =>
            match collect_id_parts (p1.tokens.length + 1) p1 [w.as_ident] with
            | .error e => .error e
            | .ok (id_parts, ends_with_wildcard, p2) =>
              if ends_with_wildcard then .ok (.QualifiedWildcard id_parts, p2)
              else
                match p2.consume_token .LParen with
                | (true, _) => .error (unmodelledErr "parse_function")
                | (false, p3) => .ok (.CompoundIdentifier id_parts, p3)
          | _ => .ok (.Identifier w.as_ident, p1)
      | .Mult => .ok (.Wildcard, p1)
      | .Plus =>
        match sub PLUS_MINUS_PREC p1 with
        | .error e => .error e
        | .ok (e, p2) => .ok (.UnaryOp .Plus e, p2)
      | .Minus =>
        match sub PLUS_MINUS_PREC p1 with
        | .error e => .error e
        | .ok (e, p2) => .ok (.UnaryOp .Minus e, p2)
      | .Number _ | .SingleQuotedString _ | .NationalStringLiteral _
      | .HexStringLiteral _ =>
        match parse_value p1.prev_token with
        | .error e => .error e
        | .ok (v, p2) => .ok (.Value v, p2)
      | .LParen =>
        match p1.parse_keyword "SELECT" with
        | (true, _) => .error (unmodelledErr "parse_query")
        | (false, pa) =>
          match pa.parse_keyword "WITH" with
          | (true, _) => .error (unmodelledErr "parse_query")
          | (false, pb) =>
            match sub 0 pb with
            | .error e => .error e
            | .ok (e, pc) =>
              match pc.expect_token .RParen with
              | .error er => .error er
              | .ok pd => .ok (.Nested e, pd)
      | other => .error (expectedMsg "an expression" (some other))
    match core with
    | .error e => .error e
    | .ok (expr, p2) =>
      match p2.parse_keyword "COLLATE" with
      | (true, p3) =>
        match parse_object_name p3 with
        | .error e => .error e
        | .ok (name, p4) => .ok (.Collate expr name, p4)
      | (false, p3) => .ok (expr, p3)

/-- Precedence-climbing loop of Parser::parse_subexpr: while the next
token binds tighter than the floor, hand the expression to parse_infix.
One token is consumed per iteration, so any fuel above the token count is
enough. -/
def subexpr_loop (sub : SubexprFn) : Nat → Nat → Expr → ParserState →
    Except ParserError (Expr × ParserState)
  | 0, _, _, _ => .error (.ParserError "parser fuel exhausted")
  | fuel + 1, precedence, e, p =>
    let next_precedence := get_next_precedence p
    if precedence ≥ next_precedence then .ok (e, p)
    else
      match parse_infix_f sub e next_precedence p with
      | .error er => .error er
      | .ok (e', p') => subexpr_loop sub fuel precedence e' p'

/-- Parser::parse_subexpr: the precedence-climbing entry point, with a fuel
argument bounding the recursion depth (the Rust recursion is bounded by
the token count). -/
def parseSubexpr : Nat → Nat → ParserState →
    Except ParserError (Expr × ParserState)
  | 0, _, _ => .error (.ParserError "parser fuel exhausted")
  | fuel + 1, precedence, p =>
    match parse_prefix_expr (parseSubexpr fuel) p with
    | .error e => .error e
    | .ok (e, p') =>
      subexpr_loop (parseSubexpr fuel) (p'.tokens.length + 1) precedence e p'

/-- Parser::parse_expr: parse_subexpr at precedence floor 0. -/
def parse_expr (p : ParserState) : Except ParserError (Expr × ParserState) :=
  parseSubexpr (p.tokens.length + 1) 0 p

/-- Parser::parse_statement restricted to the embedded fragment: the PEEK
and TAIL branches are complete; the other dispatch keywords route to their
(unmodelled) clause parsers, exactly as listed in the source match. -/
def parse_statement (p : ParserState) :
    Except ParserError (Statement × ParserState) :=
  match p.next_token with
  | (some t, p') =>
    match t with
    | .Word w =>
      if w.keyword ≠ "" then
        if w.keyword = "SELECT" ∨ w.keyword = "WITH" ∨ w.keyword = "VALUES"
        then .error (unmodelledErr "parse_query")
        else if w.keyword = "CREATE" then .error (unmodelledErr "parse_create")
        else if w.keyword = "DROP" then .error (unmodelledErr "parse_drop")
        else if w.keyword = "DELETE" then .error (unmodelledErr "parse_delete")
        else if w.keyword = "INSERT" then .error (unmodelledErr "parse_insert")
        else if w.keyword = "UPDATE" then .error (unmodelledErr "parse_update")
        else if w.keyword = "ALTER" then .error (unmodelledErr "parse_alter")
        else if w.keyword = "COPY" then .error (unmodelledErr "parse_copy")
        else if w.keyword = "START" then
          .error (unmodelledErr "parse_start_transaction")
        else if w.keyword = "SET" then
          .error (unmodelledErr "parse_set_transaction")
        else if w.keyword = "BEGIN" then .error (unmodelledErr "parse_begin")
        else if w.keyword = "COMMIT" then .error (unmodelledErr "parse_commit")
        else if w.keyword = "ROLLBACK" then
          .error (unmodelledErr "parse_rollback")
        else if w.keyword = "PEEK" then
          match parse_object_name p' with
          | .error e => .error e
          | .ok (name, p2) => .ok (.Peek name, p2)
        else if w.keyword = "SHOW" then .error (unmodelledErr "parse_show")
        else if w.keyword = "TAIL" then
          match parse_object_name p' with
          | .error e => .error e
          | .ok (name, p2) => .ok (.Tail name, p2)
        else
          .error (.ParserError ("Unexpected keyword \"" ++ wordDisplay w ++
            "\" at the beginning of a statement"))
      else
        .error (expectedMsg "a keyword at the beginning of a statement"
          (some t))
    | .LParen => .error (unmodelledErr "parse_query")
    | other =>
      .error (expectedMsg "a keyword at the beginning of a statement"
        (some other))
  | (none, _) => .error (expectedMsg "SQL statement" none)

/-- Statement loop of Parser::parse_sql: skip semicolon-delimited empty
statements, stop at end of input, demand a delimiter between consecutive
statements, and collect parsed statements in order. One token is consumed
per iteration, so any fuel above the token count is enough. -/
def parse_sql_loop : Nat → ParserState → Bool → List Statement →
    Except ParserError (List Statement)
  | 0, _, _, _ => .error (.ParserError "parser fuel exhausted")
  | fuel + 1, p, expecting_statement_delimiter, stmts =>
    match p.consume_token .SemiColon with
    | (true, p') => parse_sql_loop fuel p' false stmts
    | (false, _) =>
      match p.peek_token with
      | none => .ok stmts
      | some tok =>
        if expecting_statement_delimiter then
          .error (expectedMsg "end of statement" (some tok))
        else
          match parse_statement p with
          | .error e => .error e
          | .ok (s, p') => parse_sql_loop fuel p' true (stmts ++ [s])

/-- Parser::parse_sql: tokenize, then run the statement loop; a tokenizer
failure is wrapped into the TokenizerError variant of ParserError. -/
def parse_sql (d : Dialect) (sql : String) :
    Except ParserError (List Statement) :=
  match tokenize d sql with
  | .error e => .error (.TokenizerError e)
  | .ok toks => parse_sql_loop (toks.length + 1) ⟨toks, 0⟩ false []

/-- Convenience entry: tokenize a string with the generic dialect and run
the expression engine on the token vector, keeping the expression. -/
def parse_expr_string (s : String) : Except ParserError Expr :=
  match tokenize genericDialect s with
  | .error e => .error (.TokenizerError e)
  | .ok toks => (parse_expr ⟨toks, 0⟩).map Prod.fst

/-- Token produced by the tokenizer for a semicolon or whitespace
character (used to state the all-separators boundary property of
parse_sql). -/
def semiwsTok (c : Char) : Token :=
  if c = ';' then .SemiColon
  else if c = '\t' then .Whitespace .Tab
  else if c = '\n' then .Whitespace .Newline
  else .Whitespace .Space

/-- Characters whose scanning is faithful to the canonical token text:
everything except carriage return (normalized to newline), the single
quote (escape pairs are unescaped and an unterminated literal re-renders
with a closing quote), the lowercase letter e (exponent markers are
emitted uppercase), the period (a period before a digit discards the
rest of the input) and the exclamation mark (the not-equals spelling
with an exclamation mark renders as the angle-bracket spelling). The
double quote and the uppercase E are faithful: a delimited identifier
must be closed (an unterminated one is a tokenizer error, not a token)
and then re-renders verbatim, and an uppercase exponent marker is
re-emitted as itself. Used to state the round-trip property of the
tokenizer. -/
def safeChar (c : Char) : Bool :=
  !(c = '\r' || c = '\'' || c = 'e' || c = '.' || c = '!')

/-- Tokens of the interval string 1 5 (used by C3). -/
def tokens_1_5 : List IntervalToken := [.Num 1, .Space, .Num 5]

/-- IntervalValue for INTERVAL with value 1 5 qualified DAY TO HOUR, with
the parsed component produced by build_parsed_datetime (used by C3). -/
def iv_1_5_day_hour : IntervalValue :=
  { value := "1 5"
    parsed := { day := some 1, hour := some 5 }
    leading_field := .Day
    last_field := some .Hour }

/-- IntervalValue for INTERVAL with value 1:2:3 qualified HOUR TO MINUTE,
whose parsed component has data for hour, minute and second (used by
C4). -/
def iv_1_2_3_hour_minute : IntervalValue :=
  { value := "1:2:3"
    parsed := { hour := some 1, minute := some 2, second := some 3 }
    leading_field := .Hour
    last_field := some .Minute }


end SqlParser

namespace SqlParser

/-- C1: parsing 1+2*3 with the precedence-climbing engine yields
BinaryOp(1, Plus, BinaryOp(2, Multiply, 3)), multiplication binding
tighter than addition, and get_next_precedence realizes the table OR=5,
AND=10, comparison/BETWEEN/IN/LIKE=20, IS=17, plus/minus=30,
times/divide/modulo=40, double-colon=50. -/
theorem C1_mul_binds_tighter_than_plus :
    parse_expr_string "1+2*3" =
      .ok (.BinaryOp (.Value (.Long 1)) .Plus
        (.BinaryOp (.Value (.Long 2)) .Multiply (.Value (.Long 3)))) ∧
    get_next_precedence ⟨[Token.make_keyword "OR"], 0⟩ = 5 ∧
    get_next_precedence ⟨[Token.make_keyword "AND"], 0⟩ = 10 ∧
    get_next_precedence ⟨[Token.make_keyword "IS"], 0⟩ = 17 ∧
    get_next_precedence ⟨[Token.make_keyword "BETWEEN"], 0⟩ = 20 ∧
    get_next_precedence ⟨[Token.make_keyword "IN"], 0⟩ = 20 ∧
    get_next_precedence ⟨[Token.make_keyword "LIKE"], 0⟩ = 20 ∧
    get_next_precedence ⟨[Token.Eq], 0⟩ = 20 ∧
    get_next_precedence ⟨[Token.Neq], 0⟩ = 20 ∧
    get_next_precedence ⟨[Token.Lt], 0⟩ = 20 ∧
    get_next_precedence ⟨[Token.Gt], 0⟩ = 20 ∧
    get_next_precedence ⟨[Token.LtEq], 0⟩ = 20 ∧
    get_next_precedence ⟨[Token.GtEq], 0⟩ = 20 ∧
    get_next_precedence ⟨[Token.Plus], 0⟩ = 30 ∧
    get_next_precedence ⟨[Token.Minus], 0⟩ = 30 ∧
    get_next_precedence ⟨[Token.Mult], 0⟩ = 40 ∧
    get_next_precedence ⟨[Token.Div], 0⟩ = 40 ∧
    get_next_precedence ⟨[Token.Mod], 0⟩ = 40 ∧
    get_next_precedence ⟨[Token.DoubleColon], 0⟩ = 50 := by
  exact ⟨rfl, rfl, rfl, rfl, rfl, rfl, rfl, rfl, rfl, rfl, rfl, rfl, rfl,
    rfl, rfl, rfl, rfl, rfl, rfl⟩

/-- C3: the interval string 1 5 with leading field DAY and last field HOUR
tokenizes to Num 1, Space, Num 5; build_parsed_datetime populates exactly
day = 1 and hour = 5 with a positive sign; and computed_permissive yields
a positive duration of 1*86400 + 5*3600 seconds, using the multipliers
day=86400, hour=3600, minute=60, second=1. -/
theorem C3_interval_day_to_hour :
    tokenize_interval "1 5" = .ok tokens_1_5 ∧
    (build_parsed_datetime tokens_1_5 .Day (some .Hour)).map Prod.fst =
      .ok { is_positive := true, year := none, month := none, day := some 1,
            hour := some 5, minute := none, second := none, nano := none } ∧
    iv_1_5_day_hour.computed_permissive =
      .ok (.Duration true ⟨1 * 86400 + 5 * 3600, 0⟩) ∧
    seconds_multiplier .Day = 86400 ∧
    seconds_multiplier .Hour = 3600 ∧
    seconds_multiplier .Minute = 60 ∧
    seconds_multiplier .Second = 1 := by
  exact ⟨rfl, rfl, rfl, rfl, rfl, rfl, rfl⟩

/-- C5: evaluation of the fractional-seconds conversion at the digit run
55 (interval value string 0.55). The code multiplies the parsed digits by
1e9 / 10^(1 + leading zeros) = 1e8, giving 5_500_000_000, which is not the
9-digit right-padded interpretation 550_000_000 and does not even fit in
u32 (the emitted token holds the wrapped value 1_205_032_704; a debug
build panics). A run with a single significant digit, such as 5, does
match the right-padded interpretation. -/
theorem C5_frac_nanos_bug :
    tokenize_interval "0.55" = .ok [.Num 0, .Dot, .Nanos 1205032704] ∧
    55 * (1000000000 / 10 ^ (1 + 0)) = 5500000000 ∧
    digitsToNat "55".data * 10 ^ (9 - 2) = 550000000 ∧
    (1205032704 : Nat) ≠ 550000000 ∧
    (5500000000 : Nat) % 2 ^ 32 = 1205032704 ∧
    2 ^ 32 - 1 < 5500000000 ∧
    tokenize_interval "0.5" = .ok [.Num 0, .Dot, .Nanos 500000000] := by
  refine ⟨rfl, by norm_num, by decide, by decide, by decide, by decide, rfl⟩

/-- C8: every Word produced by Token::make_word keeps the given text and
quote style, carries a non-empty keyword only when unquoted and recognized
(in which case the keyword is the canonical uppercase form), and gets an
empty keyword whenever quoted or unrecognized. -/
theorem C8_make_word_keyword_invariant :
    ∀ (w : String) (q : QuoteStyle) (W : Word),
      Token.make_word w q = .Word W →
      W.value = w ∧
      W.quote_style = q ∧
      (W.keyword ≠ "" →
        q = none ∧ ALL_KEYWORDS.contains (asciiUppercase w) = true ∧
        W.keyword = asciiUppercase w) ∧
      (q ≠ none → W.keyword = "") ∧
      (ALL_KEYWORDS.contains (asciiUppercase w) = false → W.keyword = "") ∧
      (q = none → ALL_KEYWORDS.contains (asciiUppercase w) = true →
        W.keyword = asciiUppercase w) := by
  intro w q W h
  unfold Token.make_word at h
  injection h with h
  subst h
  by_cases hq : q = none <;> by_cases hc : ALL_KEYWORDS.contains (asciiUppercase w) <;>
    simp [hq, hc] <;> tauto

/-- Witness for C8 at the unquoted keyword text select. -/
theorem C8_make_word_keyword_invariant_witness :
    (none : QuoteStyle) = none ∧
    ALL_KEYWORDS.contains (asciiUppercase "select") = true ∧
    (Word.mk "select" none "SELECT").keyword = asciiUppercase "select" :=
  (C8_make_word_keyword_invariant "select" none
    ⟨"select", none, "SELECT"⟩ rfl).2.2.1 (by decide)

/-- C2: a NOT word has infix precedence 20 (the BETWEEN precedence)
exactly when the following token is IN, BETWEEN or LIKE, and 0 otherwise;
consequently a NOT IN (1,2,3) parses to a negated InList and
a NOT BETWEEN 1 AND 5 to a negated Between (not through the prefix-NOT
path, which would produce a UnaryOp). -/
theorem C2_not_infix_precedence :
    (∀ (p : ParserState) (k : Word),
      p.peek_token = some (.Word k) → k.keyword = "NOT" →
      get_next_precedence p =
        (match p.peek_nth_token 1 with
         | some (.Word k2) =>
           if k2.keyword = "IN" ∨ k2.keyword = "BETWEEN" ∨ k2.keyword = "LIKE"
           then 20 else 0
         | _ => 0)) ∧
    parse_expr_string "a NOT IN (1,2,3)" =
      .ok (.InList (.Identifier "a")
        [.Value (.Long 1), .Value (.Long 2), .Value (.Long 3)] true) ∧
    parse_expr_string "a NOT BETWEEN 1 AND 5" =
      .ok (.Between (.Identifier "a") true (.Value (.Long 1))
        (.Value (.Long 5))) := by
  refine ⟨?_, rfl, rfl⟩
  intro p k hp hk
  simp only [get_next_precedence, hp, hk]
  norm_num
  cases h1 : p.peek_nth_token 1 with
  | none => simp
  | some t =>
    cases t <;> simp
    case Word k2 =>
      by_cases hin : k2.keyword = "IN" <;>
        by_cases hbt : k2.keyword = "BETWEEN" <;>
          by_cases hlk : k2.keyword = "LIKE" <;>
            simp [hin, hbt, hlk, BETWEEN_PREC]

/-- Witness for C2: NOT directly followed by IN has precedence 20. -/
theorem C2_not_infix_precedence_witness :
    get_next_precedence ⟨[Token.make_keyword "NOT", Token.Whitespace .Space,
      Token.make_keyword "IN"], 0⟩ = 20 := by
  have h := C2_not_infix_precedence.1
    ⟨[Token.make_keyword "NOT", Token.Whitespace .Space,
      Token.make_keyword "IN"], 0⟩
    ⟨"NOT", none, "NOT"⟩ rfl rfl
  simpa using h

/-- Every field is in the canonical descending field list. -/
theorem mem_allDateTimeFields (f : DateTimeField) : f ∈ allDateTimeFields := by
  cases f <;> simp [allDateTimeFields]

/-- C4: for the interval value 1:2:3 qualified HOUR TO MINUTE the
precision check fails with the requested-precision-would-truncate message;
in general a populated field less significant than the resolved last field
joins extra_trailing_fields and puts the truncate message among the
collected errors, a populated field more significant than the leading
field joins extra_leading_fields and puts the extra-field message among
the errors, an unpopulated leading or last field makes missing_fields
non-empty and puts the missing-field message among the errors, and in each
case fields_match_precision returns the collected errors joined by
semicolons as a single message. -/
theorem C4_fields_match_precision_errors :
    (iv_1_2_3_hour_minute.fields_match_precision =
        .error iv_1_2_3_hour_minute.truncate_msg ∧
      iv_1_2_3_hour_minute.truncate_msg =
        "The interval string " ++ squote ++ "1:2:3" ++ squote ++
          " specifies SECONDs but the requested precision would truncate to MINUTE") ∧
    (∀ (iv : IntervalValue) (f : DateTimeField),
      (iv.units_of f).isSome = true → iv.last_field_resolved.idx < f.idx →
      f ∈ iv.extra_trailing_fields ∧
      iv.truncate_msg ∈ iv.precision_errors ∧
      iv.fields_match_precision =
        .error (String.intercalate "; " iv.precision_errors)) ∧
    (∀ (iv : IntervalValue) (f : DateTimeField),
      (iv.units_of f).isSome = true → f.idx < iv.leading_field.idx →
      f ∈ iv.extra_leading_fields ∧
      iv.extra_leading_msg ∈ iv.precision_errors ∧
      iv.fields_match_precision =
        .error (String.intercalate "; " iv.precision_errors)) ∧
    (∀ iv : IntervalValue,
      iv.units_of iv.leading_field = none ∨
        iv.units_of iv.last_field_resolved = none →
      iv.missing_fields ≠ [] ∧
      iv.missing_msg ∈ iv.precision_errors ∧
      iv.fields_match_precision =
        .error (String.intercalate "; " iv.precision_errors)) := by
  refine ⟨⟨rfl, rfl⟩, ?_, ?_, ?_⟩
  · intro iv f hsome hlt
    have hf : f ∈ iv.extra_trailing_fields := by
      unfold IntervalValue.extra_trailing_fields
      rw [List.mem_filter]
      exact ⟨mem_allDateTimeFields f, by simp [hsome, hlt]⟩
    have hne : iv.extra_trailing_fields ≠ [] := List.ne_nil_of_mem hf
    have hmem : iv.truncate_msg ∈ iv.precision_errors := by
      unfold IntervalValue.precision_errors
      exact List.mem_append.mpr
        (Or.inl (List.mem_append.mpr (Or.inr (by simp [hne]))))
    refine ⟨hf, hmem, ?_⟩
    unfold IntervalValue.fields_match_precision
    rw [if_neg (List.ne_nil_of_mem hmem)]
  · intro iv f hsome hlt
    have hf : f ∈ iv.extra_leading_fields := by
      unfold IntervalValue.extra_leading_fields
      rw [List.mem_filter]
      exact ⟨mem_allDateTimeFields f, by simp [hsome, hlt]⟩
    have hne : iv.extra_leading_fields ≠ [] := List.ne_nil_of_mem hf
    have hmem : iv.extra_leading_msg ∈ iv.precision_errors := by
      unfold IntervalValue.precision_errors
      exact List.mem_append.mpr
        (Or.inl (List.mem_append.mpr (Or.inl (by simp [hne]))))
    refine ⟨hf, hmem, ?_⟩
    unfold IntervalValue.fields_match_precision
    rw [if_neg (List.ne_nil_of_mem hmem)]
  · intro iv h
    have hne : iv.missing_fields ≠ [] := by
      unfold IntervalValue.missing_fields
      cases h1 : iv.units_of iv.leading_field <;>
        cases h2 : iv.units_of iv.last_field_resolved <;>
          simp_all
    have hmem : iv.missing_msg ∈ iv.precision_errors := by
      unfold IntervalValue.precision_errors
      exact List.mem_append.mpr (Or.inr (by simp [hne]))
    refine ⟨hne, hmem, ?_⟩
    unfold IntervalValue.fields_match_precision
    rw [if_neg (List.ne_nil_of_mem hmem)]

/-- Witness for C4 at the 1:2:3 HOUR TO MINUTE interval, whose populated
SECOND field is less significant than the resolved last field MINUTE. -/
theorem C4_fields_match_precision_errors_witness :
    DateTimeField.Second ∈ iv_1_2_3_hour_minute.extra_trailing_fields ∧
    iv_1_2_3_hour_minute.truncate_msg ∈
      iv_1_2_3_hour_minute.precision_errors ∧
    iv_1_2_3_hour_minute.fields_match_precision =
      .error (String.intercalate "; " iv_1_2_3_hour_minute.precision_errors) :=
  C4_fields_match_precision_errors.2.1 iv_1_2_3_hour_minute .Second
    (by rfl) (by decide)

/-- Unfolding equation of the fuel-indexed tokenizer loop at positive
fuel. -/
theorem tokenizeFuel_succ (d : Dialect) (fuel : Nat) (cs : List Char) :
    tokenizeFuel d (fuel + 1) cs =
      (match next_token d cs with
       | .error e => .error e
       | .ok none => .ok []
       | .ok (some (t, rest)) =>
         match tokenizeFuel d fuel rest with
         | .error e => .error e
         | .ok ts => .ok (t :: ts)) := rfl

/-- The tokenizer loop at positive fuel returns no tokens on empty
input. -/
theorem tokenizeFuel_nil (d : Dialect) (fuel : Nat) (h : fuel ≠ 0) :
    tokenizeFuel d fuel [] = .ok [] := by
  cases fuel with
  | zero => exact absurd rfl h
  | succ n => rfl

/-- A semicolon, space, tab or newline character scans to the matching
single token with the generic dialect. -/
theorem next_token_semiws (c : Char) (rest : List Char)
    (h : c = ';' ∨ c = ' ' ∨ c = '\t' ∨ c = '\n') :
    next_token genericDialect (c :: rest) = .ok (some (semiwsTok c, rest)) := by
  rcases h with h | h | h | h <;> subst h <;> rfl

/-- Tokenizing input consisting solely of semicolons and whitespace
succeeds and maps each character to its separator token. -/
theorem tokenizeFuel_semiws : ∀ (cs : List Char) (fuel : Nat),
    cs.length < fuel →
    (∀ c ∈ cs, c = ';' ∨ c = ' ' ∨ c = '\t' ∨ c = '\n') →
    tokenizeFuel genericDialect fuel cs = .ok (cs.map semiwsTok) := by
  intro cs
  induction cs with
  | nil =>
    intro fuel hf _
    cases fuel with
    | zero => omega
    | succ n => rfl
  | cons c rest ih =>
    intro fuel hf hall
    cases fuel with
    | zero => omega
    | succ n =>
      rw [tokenizeFuel_succ,
        next_token_semiws c rest (hall c (List.mem_cons_self c rest))]
      have hr : rest.length < n := by simp at hf; omega
      simp [ih n hr (fun x hx => hall x (List.mem_cons_of_mem c hx))]

/-- A separator token is either a semicolon or whitespace. -/
theorem semiwsTok_cases (c : Char) :
    semiwsTok c = Token.SemiColon ∨ isWhitespaceTok (semiwsTok c) = true := by
  unfold semiwsTok
  split_ifs <;> simp [isWhitespaceTok]

/-- The zero-lookahead peek is the head of the list with leading
whitespace dropped. -/
theorem peekNthFrom_zero (l : List Token) :
    peekNthFrom l 0 = (l.dropWhile isWhitespaceTok).head? := by
  induction l with
  | nil => rfl
  | cons t ts ih =>
    by_cases h : isWhitespaceTok t <;>
      simp [peekNthFrom, List.dropWhile_cons, h, ih]

/-- Dropping skipWsCount many tokens is dropping the leading
whitespace. -/
theorem skipWs_drop (l : List Token) :
    l.drop (skipWsCount l) = l.dropWhile isWhitespaceTok := by
  induction l with
  | nil => rfl
  | cons t ts ih =>
    by_cases h : isWhitespaceTok t <;>
      simp [skipWsCount, List.dropWhile_cons, h, ih]

/-- Membership transfers from a dropWhile result to the original list. -/
theorem mem_of_mem_dropWhile {α : Type} {p : α → Bool} {l : List α} {t : α}
    (h : t ∈ l.dropWhile p) : t ∈ l := by
  induction l with
  | nil => simpa using h
  | cons x xs ih =>
    rw [List.dropWhile_cons] at h
    by_cases hx : p x
    · simp [hx] at h
      exact List.mem_cons_of_mem x (ih h)
    · simp [hx] at h
      simpa using h

/-- The head of a non-empty dropWhile result fails the predicate. -/
theorem dropWhile_head_false {α : Type} {p : α → Bool} {l : List α} {t : α}
    {rest : List α} (h : l.dropWhile p = t :: rest) : p t = false := by
  induction l with
  | nil => simp at h
  | cons x xs ih =>
    rw [List.dropWhile_cons] at h
    by_cases hx : p x
    · simp [hx] at h
      exact ih h
    · simp [hx] at h
      rw [← h.1]
      simpa using hx

/-- Unfolding equation of the statement loop at positive fuel. -/
theorem parse_sql_loop_succ (fuel : Nat) (p : ParserState) (e : Bool)
    (stmts : List Statement) :
    parse_sql_loop (fuel + 1) p e stmts =
      (match p.consume_token .SemiColon with
       | (true, p') => parse_sql_loop fuel p' false stmts
       | (false, _) =>
         match p.peek_token with
         | none => .ok stmts
         | some tok =>
           if e then .error (expectedMsg "end of statement" (some tok))
           else
             match parse_statement p with
             | .error er => .error er
             | .ok (s, p') => parse_sql_loop fuel p' true (stmts ++ [s])) := rfl

/-- On a token vector holding only semicolons and whitespace, the
statement loop consumes everything and returns the statements it was
given, for any starting index and delimiter flag. -/
theorem parse_sql_loop_semiws : ∀ (fuel : Nat) (toks : List Token) (i : Nat)
    (expecting : Bool) (stmts : List Statement),
    (∀ t ∈ toks, t = Token.SemiColon ∨ isWhitespaceTok t = true) →
    toks.length - i < fuel →
    parse_sql_loop fuel ⟨toks, i⟩ expecting stmts = .ok stmts := by
  intro fuel
  induction fuel with
  | zero => intro toks i e s _ hf; omega
  | succ n ih =>
    intro toks i expecting stmts hall hf
    have hpeek : (⟨toks, i⟩ : ParserState).peek_token =
        ((toks.drop i).dropWhile isWhitespaceTok).head? := by
      unfold ParserState.peek_token ParserState.peek_nth_token
      exact peekNthFrom_zero _
    rw [parse_sql_loop_succ]
    cases hd : (toks.drop i).dropWhile isWhitespaceTok with
    | nil =>
      have hp : (⟨toks, i⟩ : ParserState).peek_token = none := by
        rw [hpeek, hd]; rfl
      simp [ParserState.consume_token, hp]
    | cons t rest' =>
      have hp : (⟨toks, i⟩ : ParserState).peek_token = some t := by
        rw [hpeek, hd]; rfl
      have htmem : t ∈ toks :=
        List.drop_subset i toks
          (mem_of_mem_dropWhile (p := isWhitespaceTok)
            (by rw [hd]; exact List.mem_cons_self t rest'))
      have hnotws : isWhitespaceTok t = false := dropWhile_head_false hd
      have ht2 : t = Token.SemiColon := by
        rcases hall t htmem with h | h
        · exact h
        · rw [h] at hnotws; cases hnotws
      have hcons : (⟨toks, i⟩ : ParserState).consume_token .SemiColon =
          (true, ⟨toks, i + skipWsCount (toks.drop i) + 1⟩) := by
        unfold ParserState.consume_token
        rw [hp, ht2]
        simp [ParserState.next_token]
      rw [hcons]
      have hk : skipWsCount (toks.drop i) + 1 ≤ (toks.drop i).length := by
        have hsw := skipWs_drop (toks.drop i)
        rw [hd] at hsw
        have hlen2 : ((toks.drop i).drop (skipWsCount (toks.drop i))).length
            = rest'.length + 1 := by rw [hsw]; rfl
        rw [List.length_drop] at hlen2
        omega
      have hld : (toks.drop i).length = toks.length - i :=
        List.length_drop i toks
      exact ih toks (i + skipWsCount (toks.drop i) + 1) false stmts hall
        (by omega)

/-- C7: parse_sql maps any input made solely of semicolons, spaces, tabs
and newlines (in particular the empty input) to the empty statement
sequence; a trailing semicolon after the last statement is accepted; and
two statements with no separating semicolon fail with the
expected-end-of-statement ParserError. -/
theorem C7_parse_sql_boundaries :
    (∀ cs : List Char,
      (∀ c ∈ cs, c = ';' ∨ c = ' ' ∨ c = '\t' ∨ c = '\n') →
      parse_sql genericDialect (String.mk cs) = .ok []) ∧
    parse_sql genericDialect "" = .ok [] ∧
    parse_sql genericDialect "PEEK a;" = .ok [.Peek ["a"]] ∧
    parse_sql genericDialect "PEEK a; PEEK b" =
      .ok [.Peek ["a"], .Peek ["b"]] ∧
    parse_sql genericDialect "PEEK a PEEK b" =
      .error (.ParserError "Expected end of statement, found: PEEK") := by
  refine ⟨?_, rfl, rfl, rfl, rfl⟩
  intro cs hall
  unfold parse_sql
  unfold tokenize
  rw [show (String.mk cs).data = cs from rfl]
  rw [tokenizeFuel_semiws cs (cs.length + 1) (by omega) hall]
  exact parse_sql_loop_semiws ((cs.map semiwsTok).length + 1)
    (cs.map semiwsTok) 0 false []
    (fun t ht => by
      obtain ⟨c, hc, rfl⟩ := List.mem_map.mp ht
      exact semiwsTok_cases c)
    (by simp)

/-- Witness for C7 on the separator-only input of a semicolon, a space and
a semicolon. -/
theorem C7_parse_sql_boundaries_witness :
    parse_sql genericDialect (String.mk [';', ' ', ';']) = .ok [] :=
  C7_parse_sql_boundaries.1 [';', ' ', ';'] (by decide)

/-- The single-quoted scan of a quote-free tail consumes the whole input
into the literal body. -/
theorem single_quoted_body_no_quote : ∀ (s : List Char), '\'' ∉ s →
    single_quoted_body s = (String.mk s, []) := by
  intro s
  induction s with
  | nil => intro _; rfl
  | cons c r ih =>
    intro h
    have hc : ¬c = '\'' := by
      intro hc
      exact h (by rw [← hc]; exact List.mem_cons_self c r)
    unfold single_quoted_body
    rw [if_neg hc, ih (fun hm => h (List.mem_cons_of_mem c hm))]
    rfl

/-- C9: an opened single-quoted string whose closing quote never appears
before end of input tokenizes successfully (no TokenizerError), producing
one SingleQuotedString token holding every character after the opening
quote, for any dialect that does not classify the quote as an identifier
start. -/
theorem C9_unterminated_single_quoted :
    ∀ (d : Dialect) (s : List Char),
      d.is_identifier_start '\'' = false →
      '\'' ∉ s →
      tokenize d (String.mk ('\'' :: s)) =
        .ok [.SingleQuotedString (String.mk s)] := by
  intro d s hid hq
  have hb := single_quoted_body_no_quote s hq
  have hnext : next_token d ('\'' :: s) =
      .ok (some (.SingleQuotedString (String.mk s), [])) := by
    unfold next_token
    simp [hid, tokenize_single_quoted_string, hb]
  unfold tokenize
  rw [show (String.mk ('\'' :: s)).data = '\'' :: s from rfl]
  rw [tokenizeFuel_succ, hnext]
  have h0 : tokenizeFuel d (s.length + 1) [] = .ok [] :=
    tokenizeFuel_nil d _ (by omega)
  simp [h0]

/-- Witness for C9 at the input of a quote followed by abc. -/
theorem C9_unterminated_single_quoted_witness :
    tokenize genericDialect (String.mk ('\'' :: "abc".data)) =
      .ok [.SingleQuotedString (String.mk "abc".data)] :=
  C9_unterminated_single_quoted genericDialect "abc".data (by decide)
    (by decide)

/-- C10: a period immediately followed by a digit makes the tokenizer
drain the rest of the input into one numeric literal: tokenize returns Ok
with that Number token as the final token and tokenizes nothing after it
(whatever follows the literal is discarded), as the concrete run on
SELECT .5 + 3 shows. -/
theorem C10_dot_digit_drains_input :
    (∀ (d : Dialect) (c : Char) (rest : List Char),
      d.is_identifier_start '.' = false →
      d.is_delimited_identifier_start '.' = false →
      c.isDigit = true →
      tokenize d (String.mk ('.' :: c :: rest)) =
        .ok [(tokenize_number ('.' :: c :: rest)).1]) ∧
    tokenize genericDialect "SELECT .5 + 3" =
      .ok [Token.make_keyword "SELECT", .Whitespace .Space, .Number ".5"] := by
  refine ⟨?_, rfl⟩
  intro d c rest hid hdelim hdig
  have hnext : next_token d ('.' :: c :: rest) =
      .ok (some ((tokenize_number ('.' :: c :: rest)).1, [])) := by
    unfold next_token
    simp [hid, hdelim, hdig]
  unfold tokenize
  rw [show (String.mk ('.' :: c :: rest)).data = '.' :: c :: rest from rfl]
  rw [tokenizeFuel_succ, hnext]
  have h0 : tokenizeFuel d (rest.length + 1 + 1) [] = .ok [] :=
    tokenizeFuel_nil d _ (by omega)
  simp [h0]

/-- Witness for C10 at the tail .5 followed by a space, a plus and a
three. -/
theorem C10_dot_digit_drains_input_witness :
    tokenize genericDialect (String.mk ('.' :: '5' :: " + 3".data)) =
      .ok [(tokenize_number ('.' :: '5' :: " + 3".data)).1] :=
  C10_dot_digit_drains_input.1 genericDialect '5' " + 3".data (by decide)
    (by decide) (by decide)

theorem String_mk_append (a b : List Char) :
    String.mk a ++ String.mk b = String.mk (a ++ b) := rfl

theorem tokenDisplay_make_word (s : String) :
    tokenDisplay (Token.make_word s none) = s := rfl

theorem length_dropWhile_le {α : Type} (p : α → Bool) (l : List α) :
    (l.dropWhile p).length ≤ l.length := by
  induction l with
  | nil => simp
  | cons x xs ih =>
    rw [List.dropWhile_cons]
    by_cases h : p x <;> simp [h] <;> omega

theorem number_body_no_dot : ∀ (b : Bool) (cs : List Char), '.' ∉ cs →
    number_body b cs =
      (String.mk (cs.takeWhile Char.isDigit), cs.dropWhile Char.isDigit) := by
  intro b cs
  induction cs generalizing b with
  | nil => intro _; rfl
  | cons c r ih =>
    intro h
    have hdotc : ¬c = '.' := by
      intro hc; exact h (by rw [← hc]; exact List.mem_cons_self c r)
    have hr : '.' ∉ r := fun hm => h (List.mem_cons_of_mem c hm)
    unfold number_body
    by_cases hd : c.isDigit
    · rw [if_pos hd, ih b hr]
      simp [List.takeWhile_cons, List.dropWhile_cons, hd, String_mk_append]
    · rw [if_neg hd]
      rw [if_neg (by simp [hdotc])]
      simp [List.takeWhile_cons, List.dropWhile_cons, hd]

theorem String_data_append (a b : String) : (a ++ b).data = a.data ++ b.data :=
  rfl

theorem tokenize_number_render (ch : Char) (rest : List Char)
    (hd : ch.isDigit = true) (hdot : '.' ∉ ch :: rest)
    (he : 'e' ∉ ch :: rest) :
    ∃ (n : String) (rest' : List Char),
      tokenize_number (ch :: rest) = (.Number n, rest') ∧
      n.data ++ rest' = ch :: rest ∧ rest'.length ≤ rest.length := by
  unfold tokenize_number
  rw [number_body_no_dot false (ch :: rest) hdot]
  rw [List.takeWhile_cons, List.dropWhile_cons]
  simp only [hd, if_pos, if_true]
  have htad := List.takeWhile_append_dropWhile (p := Char.isDigit) (l := rest)
  cases hr0 : rest.dropWhile Char.isDigit with
  | nil =>
    rw [hr0] at htad
    refine ⟨_, [], rfl, ?_, by simp⟩
    simp at htad ⊢
    exact htad
  | cons c0 r0 =>
    rw [hr0] at htad
    have hc0mem : c0 ∈ rest :=
      mem_of_mem_dropWhile (p := Char.isDigit)
        (by rw [hr0]; exact List.mem_cons_self c0 r0)
    have hc0e : ¬c0 = 'e' := by
      intro hc; exact he (by rw [← hc]; exact List.mem_cons_of_mem ch hc0mem)
    have hlen0 := congrArg List.length htad
    by_cases hc0E : c0 = 'E'
    · subst hc0E
      cases r0 with
      | nil =>
        refine ⟨String.mk (ch :: rest.takeWhile Char.isDigit) ++ "E" ++
          String.mk (List.takeWhile Char.isDigit []), [], ?_, ?_, by simp⟩
        · simp [peeking_take_while]
        · simp [String_data_append]
          simpa using htad
      | cons c1 r1 =>
        by_cases hc1 : c1 = '-'
        · subst hc1
          refine ⟨String.mk (ch :: rest.takeWhile Char.isDigit) ++ "E-" ++
            String.mk (r1.takeWhile Char.isDigit),
            r1.dropWhile Char.isDigit, ?_, ?_, ?_⟩
          · simp [peeking_take_while]
          · have htad1 := List.takeWhile_append_dropWhile
              (p := Char.isDigit) (l := r1)
            simp [String_data_append, htad1]
            simpa using htad
          · have hlr := length_dropWhile_le Char.isDigit r1
            simp at hlen0
            omega
        · refine ⟨String.mk (ch :: rest.takeWhile Char.isDigit) ++ "E" ++
            String.mk ((c1 :: r1).takeWhile Char.isDigit),
            (c1 :: r1).dropWhile Char.isDigit, ?_, ?_, ?_⟩
          · simp [peeking_take_while, hc1]
          · have htad1 := List.takeWhile_append_dropWhile
              (p := Char.isDigit) (l := c1 :: r1)
            simp [String_data_append, htad1]
            simpa using htad
          · have hlr := length_dropWhile_le Char.isDigit (c1 :: r1)
            simp at hlen0 hlr
            omega
    · refine ⟨String.mk (ch :: rest.takeWhile Char.isDigit), c0 :: r0,
        ?_, ?_, ?_⟩
      · simp [hc0e, hc0E]
      · simp
        exact htad
      · simp at hlen0
        simp
        omega

theorem multiline_comment_render : ∀ (r : List Char) (mc : Bool) (s : String)
    (rest : List Char),
    tokenize_multiline_comment mc r = .ok (s, rest) →
    s.data ++ '*' :: '/' :: rest = (if mc then '*' :: r else r) ∧
    rest.length ≤ r.length := by
  intro r
  induction r with
  | nil =>
    intro mc s rest h
    exact absurd h (by unfold tokenize_multiline_comment; simp)
  | cons c r' ih =>
    intro mc s rest h
    unfold tokenize_multiline_comment at h
    by_cases hmc : mc = true
    · rw [if_pos hmc] at h
      by_cases hcsl : c = '/'
      · rw [if_pos hcsl] at h
        simp at h
        obtain ⟨rfl, rfl⟩ := h
        subst hcsl
        simp [hmc]
      · rw [if_neg hcsl] at h
        cases hrec : tokenize_multiline_comment (c = '*') r' with
        | error e => rw [hrec] at h; exact absurd h (by simp)
        | ok pr =>
          obtain ⟨s0, rest0⟩ := pr
          rw [hrec] at h
          simp at h
          obtain ⟨rfl, rfl⟩ := h
          obtain ⟨ih1, ih2⟩ := ih (c = '*') s0 rest0 hrec
          refine ⟨?_, by simp; omega⟩
          rw [String_data_append, String_data_append]
          by_cases hstar : c = '*' <;>
            simp [hmc, hstar] at ih1 ⊢ <;> simp [ih1]
    · rw [if_neg hmc] at h
      cases hrec : tokenize_multiline_comment (c = '*') r' with
      | error e => rw [hrec] at h; exact absurd h (by simp)
      | ok pr =>
        obtain ⟨s0, rest0⟩ := pr
        rw [hrec] at h
        simp at h
        obtain ⟨rfl, rfl⟩ := h
        obtain ⟨ih1, ih2⟩ := ih (c = '*') s0 rest0 hrec
        refine ⟨?_, by simp; omega⟩
        rw [String_data_append]
        by_cases hstar : c = '*' <;>
          simp [hmc, hstar] at ih1 ⊢ <;> simp [ih1]

theorem word_scan_render (first : Char) (rest : List Char) :
    (tokenDisplay (Token.make_word
        (tokenize_word genericDialect first rest).1 none)).data
      ++ (tokenize_word genericDialect first rest).2 = first :: rest ∧
    (tokenize_word genericDialect first rest).2.length ≤ rest.length := by
  constructor
  · rw [tokenDisplay_make_word]
    show (String.mk [first] ++
        String.mk (rest.takeWhile genericDialect.is_identifier_part)).data
      ++ rest.dropWhile genericDialect.is_identifier_part = first :: rest
    rw [String_mk_append]
    show ([first] ++ rest.takeWhile genericDialect.is_identifier_part)
      ++ rest.dropWhile genericDialect.is_identifier_part = first :: rest
    simp [List.takeWhile_append_dropWhile]
  · exact length_dropWhile_le _ _

theorem next_token_safe_cons :
    ∀ (ch : Char) (rest : List Char), safeChar ch = true →
    (∀ c ∈ rest, safeChar c = true) →
    (∃ e, next_token genericDialect (ch :: rest) = .error e) ∨
    (∃ t rest', next_token genericDialect (ch :: rest) = .ok (some (t, rest')) ∧
      (tokenDisplay t).data ++ rest' = ch :: rest ∧
      rest'.length ≤ rest.length) := by
  intro ch rest hsafe hrest
  have hub : ¬(ch = '\r' ∨ ch = '\'' ∨ ch = 'e' ∨ ch = '.' ∨ ch = '!') := by
    intro hor
    unfold safeChar at hsafe
    rcases hor with h | h | h | h | h <;> simp [h] at hsafe
  have hCR : ¬ch = '\r' := fun h => hub (Or.inl h)
  have hSQ : ¬ch = '\'' := fun h => hub (Or.inr (Or.inl h))
  have hLe : ¬ch = 'e' := fun h => hub (Or.inr (Or.inr (Or.inl h)))
  have hDot : ¬ch = '.' :=
    fun h => hub (Or.inr (Or.inr (Or.inr (Or.inl h))))
  have hBang : ¬ch = '!' :=
    fun h => hub (Or.inr (Or.inr (Or.inr (Or.inr h))))
  have hrestq : ∀ c ∈ rest, ¬c = '\'' := by
    intro c hc he
    have := hrest c hc
    rw [he] at this
    simp [safeChar] at this
  by_cases h01 : ch = ' '
  · subst h01
    exact Or.inr ⟨.Whitespace .Space, rest, rfl, rfl, le_refl _⟩
  by_cases h02 : ch = '\t'
  · subst h02
    exact Or.inr ⟨.Whitespace .Tab, rest, rfl, rfl, le_refl _⟩
  by_cases h03 : ch = '\n'
  · subst h03
    exact Or.inr ⟨.Whitespace .Newline, rest, rfl, rfl, le_refl _⟩
  by_cases h05 : ch = 'N'
  · subst h05
    cases rest with
    | nil =>
      exact Or.inr ⟨_, _, rfl, (word_scan_render 'N' []).1,
        (word_scan_render 'N' []).2⟩
    | cons c1 r1 =>
      have hq1 : ¬c1 = '\'' := hrestq c1 (List.mem_cons_self c1 r1)
      refine Or.inr ⟨_, _, ?_, (word_scan_render 'N' (c1 :: r1)).1,
        (word_scan_render 'N' (c1 :: r1)).2⟩
      unfold next_token
      simp [hq1]
  by_cases h06 : ch = 'x' ∨ ch = 'X'
  · rcases h06 with h | h
    · subst h
      cases rest with
      | nil =>
        exact Or.inr ⟨_, _, rfl, (word_scan_render 'x' []).1,
          (word_scan_render 'x' []).2⟩
      | cons c1 r1 =>
        have hq1 : ¬c1 = '\'' := hrestq c1 (List.mem_cons_self c1 r1)
        refine Or.inr ⟨_, _, ?_, (word_scan_render 'x' (c1 :: r1)).1,
          (word_scan_render 'x' (c1 :: r1)).2⟩
        unfold next_token
        simp [hq1]
    · subst h
      cases rest with
      | nil =>
        exact Or.inr ⟨_, _, rfl, (word_scan_render 'X' []).1,
          (word_scan_render 'X' []).2⟩
      | cons c1 r1 =>
        have hq1 : ¬c1 = '\'' := hrestq c1 (List.mem_cons_self c1 r1)
        refine Or.inr ⟨_, _, ?_, (word_scan_render 'X' (c1 :: r1)).1,
          (word_scan_render 'X' (c1 :: r1)).2⟩
        unfold next_token
        simp [hq1]
  have hx : ¬ch = 'x' := fun h => h06 (Or.inl h)
  have hX : ¬ch = 'X' := fun h => h06 (Or.inr h)
  by_cases h07 : genericDialect.is_identifier_start ch = true
  · refine Or.inr ⟨_, _, ?_, (word_scan_render ch rest).1,
      (word_scan_render ch rest).2⟩
    unfold next_token
    simp [h01, h02, h03, hCR, h05, hx, hX, h07]
  by_cases h08 : ch = '"'
  · subst h08
    have htd := List.takeWhile_append_dropWhile
      (p := fun c => !decide (c = '"')) (l := rest)
    cases hr : rest.dropWhile (fun c => !decide (c = '"')) with
    | nil =>
      refine Or.inl ⟨"Expected close delimiter " ++ squote ++
        String.mk ['"'] ++ squote ++ " before EOF.", ?_⟩
      unfold next_token
      simp [peeking_take_while, matching_end_quote, hr,
        (by decide : genericDialect.is_identifier_start '"' = false),
        (by decide : genericDialect.is_delimited_identifier_start '"' = true)]
    | cons c2 r2 =>
      have hc2 : c2 = '"' := by
        have := dropWhile_head_false (p := fun c => !decide (c = '"')) hr
        simpa using this
      subst hc2
      rw [hr] at htd
      refine Or.inr ⟨Token.make_word
        (String.mk (rest.takeWhile (fun c => !decide (c = '"'))))
        (some '"'), r2, ?_, ?_, ?_⟩
      · unfold next_token
        simp [peeking_take_while, matching_end_quote, hr,
          (by decide : genericDialect.is_identifier_start '"' = false),
          (by decide : genericDialect.is_delimited_identifier_start '"'
            = true)]
      · simp [Token.make_word, tokenDisplay, wordDisplay, matching_end_quote,
          String_data_append]
        simpa using htd
      · have hlen := congrArg List.length htd
        simp at hlen ⊢
        omega
  have hdel : genericDialect.is_delimited_identifier_start ch = false := by
    simp [genericDialect, h08]
  by_cases h10 : ch.isDigit = true
  · have hdot2 : '.' ∉ ch :: rest := by
      intro hm
      rcases List.mem_cons.mp hm with h | h
      · exact hDot h.symm
      · have := hrest '.' h
        simp [safeChar] at this
    have he2 : 'e' ∉ ch :: rest := by
      intro hm
      rcases List.mem_cons.mp hm with h | h
      · exact hLe h.symm
      · have := hrest 'e' h
        simp [safeChar] at this
    obtain ⟨n, rest2, heq, hrender, hlen⟩ :=
      tokenize_number_render ch rest h10 hdot2 he2
    refine Or.inr ⟨.Number n, rest2, ?_, hrender, hlen⟩
    unfold next_token
    simp [h01, h02, h03, hCR, h05, hx, hX, h07, hSQ, hdel, h10, heq]
  by_cases h11 : ch = '('
  · subst h11
    exact Or.inr ⟨.LParen, rest, rfl, rfl, le_refl _⟩
  by_cases h12 : ch = ')'
  · subst h12
    exact Or.inr ⟨.RParen, rest, rfl, rfl, le_refl _⟩
  by_cases h13 : ch = ','
  · subst h13
    exact Or.inr ⟨.Comma, rest, rfl, rfl, le_refl _⟩
  by_cases h14 : ch = '-'
  · subst h14
    cases rest with
    | nil => exact Or.inr ⟨.Minus, [], rfl, rfl, le_refl _⟩
    | cons c1 r1 =>
      by_cases ha : c1 = '-'
      · subst ha
        cases hr2 : r1.dropWhile (fun c => !decide (c = '\n')) with
        | nil =>
          have htd := List.takeWhile_append_dropWhile
            (p := fun c => !decide (c = '\n')) (l := r1)
          rw [hr2] at htd
          simp only [List.append_nil] at htd
          refine Or.inr ⟨.Whitespace (.SingleLineComment
            (String.mk (r1.takeWhile (fun c => !decide (c = '\n'))))), [],
            ?_, ?_, ?_⟩
          · unfold next_token
            simp [peeking_take_while, hr2,
              (by decide : genericDialect.is_identifier_start '-' = false),
              (by decide : genericDialect.is_delimited_identifier_start '-'
                = false),
              (by decide : ('-'.isDigit) = false)]
          · simp [tokenDisplay, whitespaceDisplay, String_data_append]
            simpa using htd
          · simp
        | cons c2 r3 =>
          have hc2 : c2 = '\n' := by
            have := dropWhile_head_false
              (p := fun c => !decide (c = '\n')) hr2
            simpa using this
          subst hc2
          have htd := List.takeWhile_append_dropWhile
            (p := fun c => !decide (c = '\n')) (l := r1)
          rw [hr2] at htd
          refine Or.inr ⟨.Whitespace (.SingleLineComment
            (String.mk (r1.takeWhile (fun c => !decide (c = '\n'))) ++ "\n")),
            r3, ?_, ?_, ?_⟩
          · unfold next_token
            simp [peeking_take_while, hr2,
              (by decide : genericDialect.is_identifier_start '-' = false),
              (by decide : genericDialect.is_delimited_identifier_start '-'
                = false),
              (by decide : ('-'.isDigit) = false)]
          · simp [tokenDisplay, whitespaceDisplay, String_data_append]
            simpa using htd
          · have := congrArg List.length htd
            simp at this ⊢
            omega
      · by_cases hb : c1 = '>'
        · subst hb
          cases r1 with
          | nil => exact Or.inr ⟨.JsonGet, [], rfl, rfl, by simp only [List.length_cons]; omega⟩
          | cons c2 r2 =>
            by_cases hc : c2 = '>'
            · subst hc
              exact Or.inr ⟨.JsonGetAsText, r2, rfl, rfl, by simp only [List.length_cons]; omega⟩
            · refine Or.inr ⟨.JsonGet, c2 :: r2, ?_, rfl, by simp only [List.length_cons]; omega⟩
              unfold next_token
              simp [hc, (by decide : genericDialect.is_identifier_start '-' = false), (by decide : genericDialect.is_delimited_identifier_start '-' = false), (by decide : ('-'.isDigit) = false)]
        · refine Or.inr ⟨.Minus, c1 :: r1, ?_, rfl, le_refl _⟩
          unfold next_token
          simp [ha, hb, (by decide : genericDialect.is_identifier_start '-' = false), (by decide : genericDialect.is_delimited_identifier_start '-' = false), (by decide : ('-'.isDigit) = false)]
  by_cases h15 : ch = '/'
  · subst h15
    cases rest with
    | nil => exact Or.inr ⟨.Div, [], rfl, rfl, le_refl _⟩
    | cons c1 r1 =>
      by_cases ha : c1 = '*'
      · subst ha
        cases hm : tokenize_multiline_comment false r1 with
        | error e =>
          refine Or.inl ⟨e, ?_⟩
          unfold next_token
          simp [hm, (by decide : genericDialect.is_identifier_start '/' = false), (by decide : genericDialect.is_delimited_identifier_start '/' = false), (by decide : ('/'.isDigit) = false)]
        | ok pr =>
          obtain ⟨s0, rest0⟩ := pr
          obtain ⟨hr1, hr2⟩ := multiline_comment_render r1 false s0 rest0 hm
          simp at hr1
          refine Or.inr ⟨.Whitespace (.MultiLineComment s0), rest0, ?_, ?_, ?_⟩
          · unfold next_token
            simp [hm, (by decide : genericDialect.is_identifier_start '/' = false), (by decide : genericDialect.is_delimited_identifier_start '/' = false), (by decide : ('/'.isDigit) = false)]
          · simp [tokenDisplay, whitespaceDisplay, String_data_append]
            rw [← hr1]
          · simp only [List.length_cons]
            omega
      · refine Or.inr ⟨.Div, c1 :: r1, ?_, rfl, le_refl _⟩
        unfold next_token
        simp [ha, (by decide : genericDialect.is_identifier_start '/' = false), (by decide : genericDialect.is_delimited_identifier_start '/' = false), (by decide : ('/'.isDigit) = false)]
  by_cases h16 : ch = '+'
  · subst h16
    exact Or.inr ⟨.Plus, rest, rfl, rfl, le_refl _⟩
  by_cases h17 : ch = '*'
  · subst h17
    exact Or.inr ⟨.Mult, rest, rfl, rfl, le_refl _⟩
  by_cases h18 : ch = '%'
  · subst h18
    exact Or.inr ⟨.Mod, rest, rfl, rfl, le_refl _⟩
  by_cases h19 : ch = '#'
  · subst h19
    cases rest with
    | nil => exact Or.inl ⟨"Tokenizer Error", rfl⟩
    | cons c1 r1 =>
      by_cases ha : c1 = '>'
      · subst ha
        cases r1 with
        | nil => exact Or.inr ⟨.JsonGetPath, [], rfl, rfl, by simp only [List.length_cons]; omega⟩
        | cons c2 r2 =>
          by_cases hc : c2 = '>'
          · subst hc
            exact Or.inr ⟨.JsonGetPathAsText, r2, rfl, rfl, by simp only [List.length_cons]; omega⟩
          · refine Or.inr ⟨.JsonGetPath, c2 :: r2, ?_, rfl, by simp only [List.length_cons]; omega⟩
            unfold next_token
            simp [hc, (by decide : genericDialect.is_identifier_start '#' = false), (by decide : genericDialect.is_delimited_identifier_start '#' = false), (by decide : ('#'.isDigit) = false)]
      · by_cases hb : c1 = '-'
        · subst hb
          exact Or.inr ⟨.JsonDeletePath, r1, rfl, rfl, by simp only [List.length_cons]; omega⟩
        · refine Or.inl ⟨"Tokenizer Error", ?_⟩
          unfold next_token
          simp [ha, hb, (by decide : genericDialect.is_identifier_start '#' = false), (by decide : genericDialect.is_delimited_identifier_start '#' = false), (by decide : ('#'.isDigit) = false)]
  by_cases h20 : ch = '@'
  · subst h20
    cases rest with
    | nil => exact Or.inl ⟨"Tokenizer Error", rfl⟩
    | cons c1 r1 =>
      by_cases ha : c1 = '>'
      · subst ha
        exact Or.inr ⟨.JsonContainsJson, r1, rfl, rfl, by simp only [List.length_cons]; omega⟩
      · by_cases hb : c1 = '?'
        · subst hb
          exact Or.inr ⟨.JsonContainsPath, r1, rfl, rfl, by simp only [List.length_cons]; omega⟩
        · by_cases hc : c1 = '@'
          · subst hc
            exact Or.inr ⟨.JsonApplyPathPredicate, r1, rfl, rfl, by simp only [List.length_cons]; omega⟩
          · refine Or.inl ⟨"Tokenizer Error", ?_⟩
            unfold next_token
            simp [ha, hb, hc, (by decide : genericDialect.is_identifier_start '@' = false), (by decide : genericDialect.is_delimited_identifier_start '@' = false), (by decide : ('@'.isDigit) = false)]
  by_cases h21 : ch = '?'
  · subst h21
    cases rest with
    | nil => exact Or.inr ⟨.JsonContainsField, [], rfl, rfl, le_refl _⟩
    | cons c1 r1 =>
      by_cases ha : c1 = '|'
      · subst ha
        exact Or.inr ⟨.JsonContainsAnyFields, r1, rfl, rfl, by simp only [List.length_cons]; omega⟩
      · by_cases hb : c1 = '&'
        · subst hb
          exact Or.inr ⟨.JsonContainsAllFields, r1, rfl, rfl, by simp only [List.length_cons]; omega⟩
        · refine Or.inr ⟨.JsonContainsField, c1 :: r1, ?_, rfl, le_refl _⟩
          unfold next_token
          simp [ha, hb, (by decide : genericDialect.is_identifier_start '?' = false), (by decide : genericDialect.is_delimited_identifier_start '?' = false), (by decide : ('?'.isDigit) = false)]
  by_cases h22 : ch = '|'
  · subst h22
    cases rest with
    | nil => exact Or.inl ⟨"Tokenizer Error", rfl⟩
    | cons c1 r1 =>
      by_cases ha : c1 = '|'
      · subst ha
        exact Or.inr ⟨.JsonConcat, r1, rfl, rfl, by simp only [List.length_cons]; omega⟩
      · refine Or.inl ⟨"Tokenizer Error", ?_⟩
        unfold next_token
        simp [ha, (by decide : genericDialect.is_identifier_start '|' = false), (by decide : genericDialect.is_delimited_identifier_start '|' = false), (by decide : ('|'.isDigit) = false)]
  by_cases h23 : ch = '='
  · subst h23
    exact Or.inr ⟨.Eq, rest, rfl, rfl, le_refl _⟩
  by_cases h24 : ch = '<'
  · subst h24
    cases rest with
    | nil => exact Or.inr ⟨.Lt, [], rfl, rfl, le_refl _⟩
    | cons c1 r1 =>
      by_cases ha : c1 = '='
      · subst ha
        exact Or.inr ⟨.LtEq, r1, rfl, rfl, by simp only [List.length_cons]; omega⟩
      · by_cases hb : c1 = '>'
        · subst hb
          exact Or.inr ⟨.Neq, r1, rfl, rfl, by simp only [List.length_cons]; omega⟩
        · by_cases hc : c1 = '@'
          · subst hc
            exact Or.inr ⟨.JsonContainedInJson, r1, rfl, rfl, by simp only [List.length_cons]; omega⟩
          · refine Or.inr ⟨.Lt, c1 :: r1, ?_, rfl, le_refl _⟩
            unfold next_token
            simp [ha, hb, hc, (by decide : genericDialect.is_identifier_start '<' = false), (by decide : genericDialect.is_delimited_identifier_start '<' = false), (by decide : ('<'.isDigit) = false)]
  by_cases h25 : ch = '>'
  · subst h25
    cases rest with
    | nil => exact Or.inr ⟨.Gt, [], rfl, rfl, le_refl _⟩
    | cons c1 r1 =>
      by_cases ha : c1 = '='
      · subst ha
        exact Or.inr ⟨.GtEq, r1, rfl, rfl, by simp only [List.length_cons]; omega⟩
      · refine Or.inr ⟨.Gt, c1 :: r1, ?_, rfl, le_refl _⟩
        unfold next_token
        simp [ha, (by decide : genericDialect.is_identifier_start '>' = false), (by decide : genericDialect.is_delimited_identifier_start '>' = false), (by decide : ('>'.isDigit) = false)]
  by_cases h26 : ch = ':'
  · subst h26
    cases rest with
    | nil => exact Or.inr ⟨.Colon, [], rfl, rfl, le_refl _⟩
    | cons c1 r1 =>
      by_cases ha : c1 = ':'
      · subst ha
        exact Or.inr ⟨.DoubleColon, r1, rfl, rfl, by simp only [List.length_cons]; omega⟩
      · refine Or.inr ⟨.Colon, c1 :: r1, ?_, rfl, le_refl _⟩
        unfold next_token
        simp [ha, (by decide : genericDialect.is_identifier_start ':' = false), (by decide : genericDialect.is_delimited_identifier_start ':' = false), (by decide : (':'.isDigit) = false)]
  by_cases h27 : ch = ';'
  · subst h27
    exact Or.inr ⟨.SemiColon, rest, rfl, rfl, le_refl _⟩
  by_cases h28 : ch = '\\'
  · subst h28
    exact Or.inr ⟨.Backslash, rest, rfl, rfl, le_refl _⟩
  by_cases h29 : ch = '['
  · subst h29
    exact Or.inr ⟨.LBracket, rest, rfl, rfl, le_refl _⟩
  by_cases h30 : ch = ']'
  · subst h30
    exact Or.inr ⟨.RBracket, rest, rfl, rfl, le_refl _⟩
  by_cases h31 : ch = '&'
  · subst h31
    exact Or.inr ⟨.Ampersand, rest, rfl, rfl, le_refl _⟩
  by_cases h32 : ch = '\x7b'
  · subst h32
    exact Or.inr ⟨.LBrace, rest, rfl, rfl, le_refl _⟩
  by_cases h33 : ch = '\x7d'
  · subst h33
    exact Or.inr ⟨.RBrace, rest, rfl, rfl, le_refl _⟩
  by_cases h34 : ch = '$'
  · subst h34
    cases hn : rest.takeWhile Char.isDigit with
    | nil =>
      refine Or.inl
        ⟨"parameter marker ($) was not followed by at least one digit", ?_⟩
      unfold next_token tokenize_parameter peeking_take_while
      simp [hn, (by decide : genericDialect.is_identifier_start '$' = false), (by decide : genericDialect.is_delimited_identifier_start '$' = false), (by decide : ('$'.isDigit) = false)]
    | cons d ds =>
      have htd := List.takeWhile_append_dropWhile
        (p := Char.isDigit) (l := rest)
      rw [hn] at htd
      refine Or.inr ⟨.Parameter (String.mk (d :: ds)),
        rest.dropWhile Char.isDigit, ?_, ?_, ?_⟩
      · unfold next_token tokenize_parameter peeking_take_while
        simp [hn, (by decide : genericDialect.is_identifier_start '$' = false), (by decide : genericDialect.is_delimited_identifier_start '$' = false), (by decide : ('$'.isDigit) = false)]
        intro hcon
        exact absurd (congrArg String.data hcon) (by simp)
      · simp [tokenDisplay, String_data_append]
        exact htd
      · exact length_dropWhile_le _ _
  refine Or.inr ⟨.Char ch, rest, ?_, rfl, le_refl _⟩
  unfold next_token
  simp [h01, h02, h03, hCR, h05, hx, hX, h07, hSQ, hdel, h10, h11, h12, h13,
    h14, h15, h16, h17, h18, h19, h20, h21, h22, h23, hDot, hBang, h24, h25,
    h26, h27, h28, h29, h30, h31, h32, h33, h34]

theorem tokenizeFuel_safe_render : ∀ (fuel : Nat) (cs : List Char),
    cs.length < fuel →
    (∀ c ∈ cs, safeChar c = true) →
    ∀ toks, tokenizeFuel genericDialect fuel cs = .ok toks →
    (renderTokens toks).data = cs := by
  intro fuel
  induction fuel with
  | zero => intro cs hf _ _ _; omega
  | succ n ih =>
    intro cs hf hsafe toks htok
    cases cs with
    | nil =>
      have h0 : next_token genericDialect ([] : List Char) = .ok none := rfl
      rw [tokenizeFuel_succ, h0] at htok
      simp at htok
      rw [htok]
      rfl
    | cons ch rest =>
      rcases next_token_safe_cons ch rest
          (hsafe ch (List.mem_cons_self ch rest))
          (fun c hc => hsafe c (List.mem_cons_of_mem ch hc)) with
        ⟨e, he⟩ | ⟨t, rest', hnt, hrender, hlen⟩
      · rw [tokenizeFuel_succ, he] at htok
        simp at htok
      · rw [tokenizeFuel_succ, hnt] at htok
        dsimp only [] at htok
        cases hrec : tokenizeFuel genericDialect n rest' with
        | error e =>
          rw [hrec] at htok
          simp at htok
        | ok ts =>
          rw [hrec] at htok
          simp at htok
          have hsafe2 : ∀ c ∈ rest', safeChar c = true := by
            intro c hc
            apply hsafe
            rw [← hrender]
            exact List.mem_append.mpr (Or.inr hc)
          have hflen : rest'.length < n := by
            simp at hf
            omega
          have ihr := ih rest' hflen hsafe2 ts hrec
          rw [← htok]
          show ((tokenDisplay t) ++ renderTokens ts).data = ch :: rest
          rw [String_data_append, ihr, hrender]

/-- C6 counterexample: the input 1e5 contains no carriage return (so the
documented newline normalization does not apply), tokenizes successfully,
and renders as 1E5, which differs from the input: the concatenated
canonical text is not the original input. -/
theorem C6_canonical_text_counterexample :
    tokenize genericDialect "1e5" = .ok [.Number "1E5"] ∧
    renderTokens [Token.Number "1E5"] = "1E5" ∧
    ("1E5" : String) ≠ "1e5" ∧
    '\r' ∉ "1e5".data := by
  exact ⟨rfl, rfl, by decide, by decide⟩

/-- C6 (amended): for every input whose characters avoid the constructs
that re-render differently (carriage returns, single quotes, the
lowercase letter e, periods and exclamation marks - see safeChar;
double quotes and uppercase exponent markers are faithful and remain
allowed), a successful tokenize concatenates back to exactly the
original input. -/
theorem C6_canonical_text_roundtrip_safe :
    ∀ cs : List Char, (∀ c ∈ cs, safeChar c = true) →
    ∀ toks, tokenize genericDialect (String.mk cs) = .ok toks →
    renderTokens toks = String.mk cs := by
  intro cs hsafe toks h
  have hdata := tokenizeFuel_safe_render (cs.length + 1) cs (by omega)
    hsafe toks h
  calc renderTokens toks = String.mk (renderTokens toks).data := rfl
  _ = String.mk cs := by rw [hdata]

/-- Witness for the amended C6 at an input exercising both a delimited
identifier in double quotes and an uppercase exponent: the not-equal
comparison of the quoted name ab against 1E5. -/
theorem C6_canonical_text_roundtrip_safe_witness :
    renderTokens [Token.make_word "ab" (some '"'), .Whitespace .Space,
      .Neq, .Whitespace .Space, .Number "1E5"] =
      String.mk "\"ab\" <> 1E5".data :=
  C6_canonical_text_roundtrip_safe "\"ab\" <> 1E5".data (by decide)
    [Token.make_word "ab" (some '"'), .Whitespace .Space, .Neq,
      .Whitespace .Space, .Number "1E5"] rfl

end SqlParser
